import Mathlib

/-!
# lisgo: the page reader (`pagereader.go`)

A shallow embedding of `PageReader` and its methods `Read`, `ReadToEnd`,
`readAndDecodeRawRGB24`, `GetImage`, `WriteToFile`, `WriteToPng` and
`WriteToJpeg`.

Conventions of the embedding.

* Go `int` values are Lean integers, for a 64-bit `int`.  `image.NewRGBA`
  is modelled with its check of the buffer size against that range (a panic)
  and with its wrapping `Stride`; whenever it returns, every intermediate
  value of the two decode loops is below the buffer size, so nothing wraps
  there.  `/` on `int` is truncated division (`Int.tdiv`) and panics on a
  zero divisor.
* A Go byte slice is a `List Byte`; the `nil` slice is the empty list.
* A Go `error` is an `Option GoError`; `nil` is `none`.
* The scan session (`ScanSession`, not part of `pagereader.go`) is a
  parameter: a state type `σ` with the two methods the page reader calls.
  The session state is threaded explicitly through every method, together
  with two ghost counters recording how often `Read` and `ScanRead` ran.
* A method that can panic or loop forever returns an `Outcome`; loops whose
  exit depends on the session take a fuel argument.
* `os.Create` and the two encoders are parameters too; what happens to the
  output file (created, handle closed, encoder calls) is kept in a ghost
  record, and the deferred `Close` runs on every return and on a panic.
* Logging (`log.Debug`) has no effect on any value and is left out.
-/

namespace Lisgo

/-! ## Values -/

/-- A Go `byte`. -/
abbrev Byte := UInt8

/-- Go `error` values that occur in `pagereader.go`: `io.EOF`, the error made
by `errors.New("unknown file format")`, and any other error (from the session,
a codec or the file system), told apart by a code. -/
inductive GoError where
  | EOF
  | unknownFileFormat
  | other (code : Nat)
  deriving DecidableEq, Repr

/-- Run-time panics of the Go code; `hugeRectangle` is the panic of
`image.NewRGBA` ("Rectangle has huge or negative dimensions"). -/
inductive Panic where
  | divideByZero
  | indexOutOfRange
  | sliceBoundsOutOfRange
  | hugeRectangle
  deriving DecidableEq, Repr

/-- How a call ends: it returns a value, it panics, or the fuel given to a
loop of the model is used up before the loop exits. -/
inductive Outcome (α : Type) where
  | ret (a : α)
  | panic (p : Panic)
  | outOfFuel
  deriving Repr

/-! ## The scan session (external collaborator) -/

/-- What `ScanSession.ScanRead(p)` hands back: the count `n`, the error, the
bytes it stored into `p` starting at index 0, and the next session state. -/
structure ScanReadResult (σ : Type) where
  n : Int
  err : Option GoError
  stored : List Byte
  session : σ

/-- The two methods of `*ScanSession` used by the page reader, over a session
state `σ`.  `EndOfPage` is a query; `ScanRead` receives the buffer. -/
structure ScanSession (σ : Type) where
  EndOfPage : σ → Bool
  ScanRead : σ → List Byte → ScanReadResult σ

/-- The mutable world a page reader acts on: the session state, and ghost
counters of the calls of `PageReader.Read` and of `ScanSession.ScanRead`. -/
structure World (σ : Type) where
  session : σ
  reads : Nat
  scanReads : Nat

/-- `PageReader`: the declared parameters and the session it reads from. -/
structure PageReader (σ : Type) where
  Width : Int
  Height : Int
  Format : Nat
  ImageSize : Nat
  Session : ScanSession σ

/-- The buffer `p` after a callee stored `stored` at its start: the length of
`p` never changes, bytes beyond the stored ones keep their value. -/
def overwrite : List Byte → List Byte → List Byte
  | [], _ => []
  | b :: p, [] => b :: p
  | _ :: p, d :: ds => d :: overwrite p ds

/-- Result of `PageReader.Read(p)`: `(n, err)`, the buffer afterwards and the
world afterwards. -/
structure ReadResult (σ : Type) where
  n : Int
  err : Option GoError
  p : List Byte
  world : World σ

/-- Method `Read` of `PageReader`:
`if sb.Session.EndOfPage() { return 0, io.EOF }; return sb.Session.ScanRead(p)`. -/
def PageReader.Read {σ : Type} (sb : PageReader σ) (w : World σ) (p : List Byte) :
    ReadResult σ :=
  if sb.Session.EndOfPage w.session then
    { n := 0, err := some GoError.EOF, p := p,
      world := { w with reads := w.reads + 1 } }
  else
    let r := sb.Session.ScanRead w.session p
    { n := r.n, err := r.err, p := overwrite p r.stored,
      world := { session := r.session, reads := w.reads + 1,
                 scanReads := w.scanReads + 1 } }

/-- Result of `ReadToEnd`: the byte slice, the error, the world afterwards. -/
structure ReadToEndResult (σ : Type) where
  data : List Byte
  err : Option GoError
  world : World σ

/-- The chunk size of `ReadToEnd`: `128*1024`. -/
def chunkSize : Nat := 128 * 1024

/-- The `for { ... }` loop of `ReadToEnd`, one iteration per unit of fuel:
read, append `buf[:n]` when `n > 0` (a slice bound above the capacity
panics), stop on `io.EOF`, return `nil, err` on any other error. -/
def PageReader.ReadToEndLoop {σ : Type} (sb : PageReader σ) :
    Nat → World σ → List Byte → List Byte → Outcome (ReadToEndResult σ)
  | 0, _, _, _ => Outcome.outOfFuel
  | fuel + 1, w, result, buf =>
    let r := sb.Read w buf
    if 0 < r.n ∧ (r.p.length : Int) < r.n then
      Outcome.panic Panic.sliceBoundsOutOfRange
    else
      let result1 := if 0 < r.n then result ++ r.p.take r.n.toNat else result
      if r.err = some GoError.EOF then
        Outcome.ret { data := result1, err := none, world := r.world }
      else if r.err ≠ none then
        Outcome.ret { data := [], err := r.err, world := r.world }
      else
        PageReader.ReadToEndLoop sb fuel r.world result1 r.p

/-- Method `ReadToEnd` of `PageReader`: `var result []byte`,
`buf := make([]byte, 128*1024)`, then the loop. -/
def PageReader.ReadToEnd {σ : Type} (sb : PageReader σ) (fuel : Nat) (w : World σ) :
    Outcome (ReadToEndResult σ) :=
  PageReader.ReadToEndLoop sb fuel w [] (List.replicate chunkSize 0)

/-! ## Images (Go standard library `image`, `image/color`) -/

/-- Go `image.Point`. -/
structure Point where
  X : Int
  Y : Int
  deriving DecidableEq, Repr

/-- Go `image.Rectangle`: the points with `Min.X ≤ x < Max.X`, `Min.Y ≤ y < Max.Y`. -/
structure Rectangle where
  Min : Point
  Max : Point
  deriving DecidableEq, Repr

/-- Go `image.Rect(x0, y0, x1, y1)`: the rectangle, with the coordinates of a
pair swapped when they come in the wrong order. -/
def Rect (x0 y0 x1 y1 : Int) : Rectangle :=
  let xs := if x0 > x1 then (x1, x0) else (x0, x1)
  let ys := if y0 > y1 then (y1, y0) else (y0, y1)
  { Min := { X := xs.1, Y := ys.1 }, Max := { X := xs.2, Y := ys.2 } }

/-- Go `Rectangle.Dx`: the width. -/
def Rectangle.Dx (r : Rectangle) : Int := r.Max.X - r.Min.X

/-- Go `Rectangle.Dy`: the height. -/
def Rectangle.Dy (r : Rectangle) : Int := r.Max.Y - r.Min.Y

/-- Go `Point.In`: whether the point lies in the rectangle. -/
def Point.In (p : Point) (r : Rectangle) : Bool :=
  decide (r.Min.X ≤ p.X) && decide (p.X < r.Max.X) &&
    decide (r.Min.Y ≤ p.Y) && decide (p.Y < r.Max.Y)

/-- Go `color.RGBA`. -/
structure RGBA where
  R : Byte
  G : Byte
  B : Byte
  A : Byte
  deriving DecidableEq, Repr

/-- Go `image.RGBA`: the pixel bytes `Pix` (four per pixel, row after row),
the `Stride` between rows, and the bounds `Rect`. -/
structure RGBAImage where
  Pix : List Byte
  Stride : Int
  Rect : Rectangle
  deriving DecidableEq, Repr

/-- A value computed in a 64-bit Go `int`: the integer brought back into
`-2^63 ≤ v < 2^63` modulo `2^64`. -/
def wrapInt (v : Int) : Int :=
  (v + 9223372036854775808) % 18446744073709551616 - 9223372036854775808

/-- Go `image.mul3NonNeg(x, y, z)`: the product, or `-1` when an argument is
negative, when `x*y` or `x*y*z` does not fit 64 bits unsigned (the high word
of `bits.Mul64` is not zero), or when the product read as an `int` is
negative. -/
def mul3NonNeg (x y z : Int) : Int :=
  if x < 0 ∨ y < 0 ∨ z < 0 then -1
  else if 18446744073709551616 ≤ x * y then -1
  else if 18446744073709551616 ≤ x * y * z then -1
  else if 9223372036854775808 ≤ x * y * z then -1
  else x * y * z

/-- Go `image.pixelBufferLength(bytesPerPixel, r, "RGBA")`: the buffer size,
or the panic when `mul3NonNeg` gives a negative value. -/
def pixelBufferLength (bytesPerPixel : Int) (r : Rectangle) : Outcome Int :=
  let totalLength := mul3NonNeg bytesPerPixel r.Dx r.Dy
  if totalLength < 0 then Outcome.panic Panic.hugeRectangle else Outcome.ret totalLength

/-- Go `image.NewRGBA(r)`: `Pix: make([]uint8, pixelBufferLength(4, r, "RGBA"))`,
every byte zero, `Stride: 4 * r.Dx()` in a 64-bit `int`, `Rect: r`. -/
def NewRGBA (r : Rectangle) : Outcome RGBAImage :=
  match pixelBufferLength 4 r with
  | Outcome.ret n =>
    Outcome.ret { Pix := List.replicate n.toNat 0, Stride := wrapInt (4 * r.Dx), Rect := r }
  | Outcome.panic e => Outcome.panic e
  | Outcome.outOfFuel => Outcome.outOfFuel

/-- Go `(*RGBA).PixOffset`: the index in `Pix` of the first byte of `(x, y)`. -/
def RGBAImage.PixOffset (m : RGBAImage) (x y : Int) : Int :=
  (y - m.Rect.Min.Y) * m.Stride + (x - m.Rect.Min.X) * 4

/-- Go `(*RGBA).Set(x, y, c)` with `c` a `color.RGBA`: nothing outside the
bounds, else the four bytes of the pixel are stored. -/
def RGBAImage.Set (m : RGBAImage) (x y : Int) (c : RGBA) : RGBAImage :=
  if !(Point.In { X := x, Y := y } m.Rect) then m
  else
    let i := (m.PixOffset x y).toNat
    { m with Pix := (((m.Pix.set i c.R).set (i + 1) c.G).set (i + 2) c.B).set (i + 3) c.A }

/-- Go `(*RGBA).RGBAAt(x, y)` (what `At` returns): the zero colour outside
the bounds, else the four bytes of the pixel. -/
def RGBAImage.RGBAAt (m : RGBAImage) (x y : Int) : RGBA :=
  if !(Point.In { X := x, Y := y } m.Rect) then { R := 0, G := 0, B := 0, A := 0 }
  else
    let i := (m.PixOffset x y).toNat
    { R := m.Pix.getD i 0, G := m.Pix.getD (i + 1) 0,
      B := m.Pix.getD (i + 2) 0, A := m.Pix.getD (i + 3) 0 }

/-! ## The raw RGB24 decode -/

/-- The index expression `s[i]` on a byte slice: a panic outside `0 ≤ i < len(s)`. -/
def index (s : List Byte) (i : Int) : Outcome Byte :=
  if 0 ≤ i ∧ i < s.length then Outcome.ret (s.getD i.toNat 0)
  else Outcome.panic Panic.indexOutOfRange

/-- The inner loop `for x := ...; x < width; x++` of row `y`, started at
column `x` with `todo` iterations left: `idx := (y*width + x) * 3` and
`img.Set(x, y, color.RGBA{rawData[idx], rawData[idx+1], rawData[idx+2], 255})`. -/
def decodeRow (rawData : List Byte) (width y : Int) :
    Nat → Int → RGBAImage → Outcome RGBAImage
  | 0, _, img => Outcome.ret img
  | todo + 1, x, img =>
    let idx := (y * width + x) * 3
    match index rawData idx with
    | Outcome.ret r =>
      match index rawData (idx + 1) with
      | Outcome.ret g =>
        match index rawData (idx + 2) with
        | Outcome.ret b =>
          decodeRow rawData width y todo (x + 1)
            (img.Set x y { R := r, G := g, B := b, A := 255 })
        | Outcome.panic e => Outcome.panic e
        | Outcome.outOfFuel => Outcome.outOfFuel
      | Outcome.panic e => Outcome.panic e
      | Outcome.outOfFuel => Outcome.outOfFuel
    | Outcome.panic e => Outcome.panic e
    | Outcome.outOfFuel => Outcome.outOfFuel

/-- The outer loop `for y := ...; y < height; y++`, started at row `y` with
`todo` iterations left; each iteration runs the inner loop from column 0,
which has `width` iterations when `width` is positive and none otherwise. -/
def decodeRows (rawData : List Byte) (width : Int) :
    Nat → Int → RGBAImage → Outcome RGBAImage
  | 0, _, img => Outcome.ret img
  | todo + 1, y, img =>
    match decodeRow rawData width y width.toNat 0 img with
    | Outcome.ret img1 => decodeRows rawData width todo (y + 1) img1
    | Outcome.panic e => Outcome.panic e
    | Outcome.outOfFuel => Outcome.outOfFuel

/-- Lines 65 to 88 of `readAndDecodeRawRGB24`, on the bytes `rawData` read
and the declared width: `height := len(rawData) / 3 / sb.Width` (a panic
when the width is zero), a new RGBA image of `width` by `height` (a panic
when `image.NewRGBA` refuses the rectangle), and the two loops, which run
from 0 while `y < height` and `x < width`. -/
def decodeRawRGB24 (rawData : List Byte) (Width : Int) : Outcome RGBAImage :=
  if Width = 0 then Outcome.panic Panic.divideByZero
  else
    let width := Width
    let height := ((rawData.length : Int).tdiv 3).tdiv Width
    match NewRGBA (Rect 0 0 width height) with
    | Outcome.ret img => decodeRows rawData width height.toNat 0 img
    | Outcome.panic e => Outcome.panic e
    | Outcome.outOfFuel => Outcome.outOfFuel

/-- Result of `readAndDecodeRawRGB24`: the image (`nil` is `none`), the
error, the world afterwards. -/
structure RawResult (σ : Type) where
  img : Option RGBAImage
  err : Option GoError
  world : World σ

/-- Method `readAndDecodeRawRGB24` of `PageReader`: `ReadToEnd`, `nil, err`
when that fails, else the decode of the bytes with `sb.Width`. -/
def PageReader.readAndDecodeRawRGB24 {σ : Type} (sb : PageReader σ) (fuel : Nat)
    (w : World σ) : Outcome (RawResult σ) :=
  match sb.ReadToEnd fuel w with
  | Outcome.ret r =>
    if r.err ≠ none then Outcome.ret { img := none, err := r.err, world := r.world }
    else
      match decodeRawRGB24 r.data sb.Width with
      | Outcome.ret img => Outcome.ret { img := some img, err := none, world := r.world }
      | Outcome.panic e => Outcome.panic e
      | Outcome.outOfFuel => Outcome.outOfFuel
  | Outcome.panic e => Outcome.panic e
  | Outcome.outOfFuel => Outcome.outOfFuel

/-! ## GetImage -/

/-- Go `image.Image` values met here: the `*image.RGBA` built by the raw
decode, or whatever image type `ι` the codecs produce. -/
inductive Image (ι : Type) where
  | rgba (m : RGBAImage)
  | decoded (m : ι)

/-- Result of `GetImage`, and of `image.Decode` without the format name. -/
structure ImageResult (σ ι : Type) where
  img : Option (Image ι)
  err : Option GoError
  world : World σ

/-- What `GetImage` takes from outside `pagereader.go`: the constant
`LisImgFormatRawRGB24` and `image.Decode` with the registered codecs, which
receives the page reader as an `io.Reader`, that is, its `Read` method. -/
structure Externals (σ ι : Type) where
  LisImgFormatRawRGB24 : Nat
  Decode : (World σ → List Byte → ReadResult σ) → World σ → Outcome (ImageResult σ ι)

/-- The same outcome with a function applied to the value returned. -/
def Outcome.map {α β : Type} (f : α → β) : Outcome α → Outcome β
  | Outcome.ret a => Outcome.ret (f a)
  | Outcome.panic e => Outcome.panic e
  | Outcome.outOfFuel => Outcome.outOfFuel

/-- The result of the raw decode seen as a result of `GetImage`: its image,
when not nil, is an `*image.RGBA` held in an `image.Image`. -/
def RawResult.asImageResult {σ ι : Type} (r : RawResult σ) : ImageResult σ ι :=
  { img := r.img.map Image.rgba, err := r.err, world := r.world }

/-- Method `GetImage` of `PageReader`: the raw decode when
`sb.Format == LisImgFormatRawRGB24`, else `image.Decode(sb)`. -/
def PageReader.GetImage {σ ι : Type} (E : Externals σ ι) (sb : PageReader σ)
    (fuel : Nat) (w : World σ) : Outcome (ImageResult σ ι) :=
  if sb.Format = E.LisImgFormatRawRGB24 then
    (sb.readAndDecodeRawRGB24 fuel w).map RawResult.asImageResult
  else
    E.Decode sb.Read w

/-! ## WriteToFile, WriteToPng, WriteToJpeg -/

/-- A call of an encoder on the output file: `png.Encode(outputFile, img)` or
`jpeg.Encode(outputFile, img, &jpeg.Options{Quality: quality})`. -/
inductive Encoding (ι : Type) where
  | png (img : Option (Image ι))
  | jpeg (img : Option (Image ι)) (quality : Int)

/-- Ghost record of what happened to output files: the names `os.Create`
created (each with an open handle), how many times a handle was closed, and
the encoder calls made on a handle, the only writes to a file. -/
structure Files (ι : Type) where
  created : List String
  closed : Nat
  encoded : List (Encoding ι)

/-- What `WriteToFile` takes from outside `pagereader.go`: `os.Create` (its
error, nil when the file was created) and the two encoders (their error, or a
panic). -/
structure FileExternals (ι : Type) where
  Create : String → Option GoError
  pngEncode : Option (Image ι) → Outcome (Option GoError)
  jpegEncode : Option (Image ι) → Int → Outcome (Option GoError)

/-- What `WriteToFile` returns: the error, and the world afterwards. -/
structure WriteReturn (σ : Type) where
  err : Option GoError
  world : World σ

/-- How a call of `WriteToFile` ends, and the record of the files then. -/
structure WriteResult (σ ι : Type) where
  out : Outcome (WriteReturn σ)
  files : Files ι

/-- Lines 116 to 126 of `WriteToFile`, after the file was created: `GetImage`,
its error returned when there is one, then the `switch format` with the two
encoders, then `errors.New("unknown file format")`. -/
def PageReader.WriteToFileBody {σ ι : Type} (E : Externals σ ι) (X : FileExternals ι)
    (sb : PageReader σ) (fuel : Nat) (w : World σ) (fs : Files ι) (format : String) :
    WriteResult σ ι :=
  match sb.GetImage E fuel w with
  | Outcome.ret r =>
    if r.err ≠ none then
      { out := Outcome.ret { err := r.err, world := r.world }, files := fs }
    else if format = "png" then
      { out := (X.pngEncode r.img).map (fun e => { err := e, world := r.world }),
        files := { fs with encoded := fs.encoded ++ [Encoding.png r.img] } }
    else if format = "jpg" then
      { out := (X.jpegEncode r.img 50).map (fun e => { err := e, world := r.world }),
        files := { fs with encoded := fs.encoded ++ [Encoding.jpeg r.img 50] } }
    else
      { out := Outcome.ret { err := some GoError.unknownFileFormat, world := r.world },
        files := fs }
  | Outcome.panic e => { out := Outcome.panic e, files := fs }
  | Outcome.outOfFuel => { out := Outcome.outOfFuel, files := fs }

/-- The statement `defer outputFile.Close()`: the handle is closed when the
function returns or panics, not when it never comes back. -/
def deferredClose {σ ι : Type} (r : WriteResult σ ι) : WriteResult σ ι :=
  match r.out with
  | Outcome.outOfFuel => r
  | _ => { r with files := { r.files with closed := r.files.closed + 1 } }

/-- Method `WriteToFile` of `PageReader`: `os.Create(name)`, its error
returned when there is one, else the deferred close and the rest. -/
def PageReader.WriteToFile {σ ι : Type} (E : Externals σ ι) (X : FileExternals ι)
    (sb : PageReader σ) (fuel : Nat) (w : World σ) (fs : Files ι) (name format : String) :
    WriteResult σ ι :=
  match X.Create name with
  | some err => { out := Outcome.ret { err := some err, world := w }, files := fs }
  | none =>
    deferredClose
      (sb.WriteToFileBody E X fuel w { fs with created := fs.created ++ [name] } format)

/-- Method `WriteToPng` of `PageReader`. -/
def PageReader.WriteToPng {σ ι : Type} (E : Externals σ ι) (X : FileExternals ι)
    (sb : PageReader σ) (fuel : Nat) (w : World σ) (fs : Files ι) (name : String) :
    WriteResult σ ι :=
  sb.WriteToFile E X fuel w fs name "png"

/-- Method `WriteToJpeg` of `PageReader`. -/
def PageReader.WriteToJpeg {σ ι : Type} (E : Externals σ ι) (X : FileExternals ι)
    (sb : PageReader σ) (fuel : Nat) (w : World σ) (fs : Files ι) (name : String) :
    WriteResult σ ι :=
  sb.WriteToFile E X fuel w fs name "jpg"

/-! ## Vocabulary of the specification -/

/-- Bytes a read delivered to its caller: `p[:n]` when `n > 0`, none otherwise. -/
def ReadResult.delivered {σ : Type} (r : ReadResult σ) : List Byte :=
  if 0 < r.n then r.p.take r.n.toNat else []

/-- Result of read number `k` (counted from 0) in a run of successive reads
started in world `w` with buffer `buf`, every read taking the world and the
buffer the read before it left. -/
def PageReader.nthRead {σ : Type} (sb : PageReader σ) :
    Nat → World σ → List Byte → ReadResult σ
  | 0, w, buf => sb.Read w buf
  | k + 1, w, buf => PageReader.nthRead sb k (sb.Read w buf).world (sb.Read w buf).p

/-- The derived height of the raw decode: `len(rawData) / 3 / Width`. -/
def rawHeight (rawData : List Byte) (Width : Int) : Int :=
  ((rawData.length : Int).tdiv 3).tdiv Width

/-- The colour the raw layout gives pixel `(x, y)`: the three bytes from
offset `(y*W + x) * 3` on, and alpha 255. -/
def rawPixel (rawData : List Byte) (W x y : Int) : RGBA :=
  { R := rawData.getD ((y * W + x) * 3).toNat 0,
    G := rawData.getD ((y * W + x) * 3 + 1).toNat 0,
    B := rawData.getD ((y * W + x) * 3 + 2).toNat 0,
    A := 255 }

/-- An RGBA image laid out as `NewRGBA` makes it for the bounds
`(0,0)-(W,h)`: that rectangle, stride `4*W`, and `4*W*h` bytes. -/
def RGBAImage.Canvas (m : RGBAImage) (W h : Int) : Prop :=
  m.Rect = { Min := { X := 0, Y := 0 }, Max := { X := W, Y := h } } ∧
    m.Stride = 4 * W ∧ (m.Pix.length : Int) = 4 * W * h

/-- The behaviour of `image.Decode` on a stream without bytes: when every
read of its reader returns 0 and `io.EOF`, it returns a nil image and an
error (`image.ErrFormat`). -/
def Externals.FailsOnEmptyStream {σ ι : Type} (E : Externals σ ι) : Prop :=
  ∀ (read : World σ → List Byte → ReadResult σ) (w : World σ),
    (∀ w1 p, w1.session = w.session →
      (read w1 p).n = 0 ∧ (read w1 p).err = some GoError.EOF ∧
        (read w1 p).world.session = w1.session) →
    ∃ r, E.Decode read w = Outcome.ret r ∧ r.img = none ∧ r.err ≠ none

/-- Worlds that come after `w` in the life of a page reader.  A step is a
read of the page reader, with any buffer, or a step of the owner of the
session: the page reader only holds a pointer to the session
(`Session *ScanSession`), which its owner goes on using, for instance to move
to the next page; `owner s s1` says the owner may take the session from
state `s` to state `s1`. -/
inductive PageReader.LaterWorld {σ : Type} (sb : PageReader σ) (owner : σ → σ → Prop)
    (w : World σ) : World σ → Prop where
  | start : PageReader.LaterWorld sb owner w w
  | read (w1 : World σ) (p : List Byte) :
      PageReader.LaterWorld sb owner w w1 →
      PageReader.LaterWorld sb owner w (sb.Read w1 p).world
  | moved (w1 : World σ) (s1 : σ) :
      PageReader.LaterWorld sb owner w w1 → owner w1.session s1 →
      PageReader.LaterWorld sb owner w { w1 with session := s1 }

/-! ## A scripted session, for concrete runs -/

/-- A session whose state is the list of answers `ScanRead` still has to
give, each a chunk of bytes and an error; the page ends when none is left. -/
def scriptSession : ScanSession (List (List Byte × Option GoError)) where
  EndOfPage s := s.isEmpty
  ScanRead s _ :=
    match s with
    | [] => { n := 0, err := none, stored := [], session := [] }
    | (d, e) :: rest => { n := d.length, err := e, stored := d, session := rest }

/-- A page reader over the scripted session. -/
def scriptReader (Width : Int) (Format : Nat) :
    PageReader (List (List Byte × Option GoError)) :=
  { Width := Width, Height := 0, Format := Format, ImageSize := 0, Session := scriptSession }

/-- A page of 300 bytes: the byte at offset `i` is `i` modulo 256. -/
def samplePage : List Byte := (List.range 300).map UInt8.ofNat

/-- A stand-in for `image.Decode` with format code 0 for raw RGB24: it reads
once into a buffer of four bytes, fails when that read brings nothing, and
else returns the bytes it got as the decoded image. -/
def sampleExternals : Externals (List (List Byte × Option GoError)) (List Byte) where
  LisImgFormatRawRGB24 := 0
  Decode read w :=
    let r := read w [0, 0, 0, 0]
    if r.n ≤ 0 then
      Outcome.ret { img := none, err := some (GoError.other 1), world := r.world }
    else
      Outcome.ret { img := some (Image.decoded (r.p.take r.n.toNat)), err := none,
                    world := r.world }

/-- A file system in which `os.Create` succeeds except for the empty name,
with a PNG encoder that succeeds and a JPEG encoder that fails. -/
def sampleFiles : FileExternals (List Byte) where
  Create name := if name = "" then some (GoError.other 2) else none
  pngEncode _ := Outcome.ret none
  jpegEncode _ _ := Outcome.ret (some (GoError.other 3))

/-- A session that never reports the end of the page and whose reads bring
no byte and no error. -/
def idleSession : ScanSession Unit where
  EndOfPage _ := false
  ScanRead _ _ := { n := 0, err := none, stored := [], session := () }

/-- A page reader over the idle session. -/
def idleReader : PageReader Unit :=
  { Width := 1, Height := 0, Format := 0, ImageSize := 0, Session := idleSession }

/-- An owner of the scripted session who starts the next page, of one chunk
with the byte 9. -/
def nextPageOwner : List (List Byte × Option GoError) → List (List Byte × Option GoError) → Prop :=
  fun _ s1 => s1 = [([9], none)]

/-- An owner of the scripted session who only ever leaves it without
answers, that is, at the end of the page. -/
def idleOwner : List (List Byte × Option GoError) → List (List Byte × Option GoError) → Prop :=
  fun _ s1 => s1 = []

/-! # Theorems -/

/-! ## Buffers and single reads -/

theorem length_overwrite (p d : List Byte) : (overwrite p d).length = p.length := by
  induction p generalizing d with
  | nil => simp [overwrite]
  | cons b p ih =>
    cases d with
    | nil => simp [overwrite]
    | cons x ds => simp [overwrite, ih]

theorem take_overwrite (p d : List Byte) (h : d.length ≤ p.length) :
    (overwrite p d).take d.length = d := by
  induction p generalizing d with
  | nil => cases d with
    | nil => simp [overwrite]
    | cons x ds => simp at h
  | cons b p ih =>
    cases d with
    | nil => simp [overwrite]
    | cons x ds =>
      simp only [List.length_cons, Nat.add_le_add_iff_right] at h
      simp [overwrite, ih ds h]

theorem length_read_p {σ : Type} (sb : PageReader σ) (w : World σ) (p : List Byte) :
    (sb.Read w p).p.length = p.length := by
  unfold PageReader.Read
  split <;> simp [length_overwrite]

/-- One iteration of the loop that ends on `io.EOF`. -/
theorem ReadToEndLoop_eof {σ : Type} (sb : PageReader σ) (fuel : Nat) (w : World σ)
    (result buf : List Byte) (hn : (sb.Read w buf).n ≤ buf.length)
    (he : (sb.Read w buf).err = some GoError.EOF) :
    sb.ReadToEndLoop (fuel + 1) w result buf =
      Outcome.ret { data := result ++ (sb.Read w buf).delivered, err := none,
                    world := (sb.Read w buf).world } := by
  have hlen := length_read_p sb w buf
  have hnp : ¬ (0 < (sb.Read w buf).n ∧ ((sb.Read w buf).p.length : Int) < (sb.Read w buf).n) := by
    rw [hlen]; omega
  simp only [PageReader.ReadToEndLoop, hnp, if_false, he, if_true, ReadResult.delivered]
  split <;> simp

theorem ReadToEndLoop_err {σ : Type} (sb : PageReader σ) (fuel : Nat) (w : World σ)
    (result buf : List Byte) (e : GoError) (hn : (sb.Read w buf).n ≤ buf.length)
    (he : (sb.Read w buf).err = some e) (hne : e ≠ GoError.EOF) :
    sb.ReadToEndLoop (fuel + 1) w result buf =
      Outcome.ret { data := [], err := some e, world := (sb.Read w buf).world } := by
  have hlen := length_read_p sb w buf
  have hnp : ¬ (0 < (sb.Read w buf).n ∧ ((sb.Read w buf).p.length : Int) < (sb.Read w buf).n) := by
    rw [hlen]; omega
  simp [PageReader.ReadToEndLoop, hnp, he, hne]

theorem ReadToEndLoop_continue {σ : Type} (sb : PageReader σ) (fuel : Nat) (w : World σ)
    (result buf : List Byte) (hn : (sb.Read w buf).n ≤ buf.length)
    (he : (sb.Read w buf).err = none) :
    sb.ReadToEndLoop (fuel + 1) w result buf =
      sb.ReadToEndLoop fuel (sb.Read w buf).world (result ++ (sb.Read w buf).delivered)
        (sb.Read w buf).p := by
  have hlen := length_read_p sb w buf
  have hnp : ¬ (0 < (sb.Read w buf).n ∧ ((sb.Read w buf).p.length : Int) < (sb.Read w buf).n) := by
    rw [hlen]; omega
  have hd : (if 0 < (sb.Read w buf).n then
        result ++ (sb.Read w buf).p.take (sb.Read w buf).n.toNat else result) =
      result ++ (sb.Read w buf).delivered := by
    unfold ReadResult.delivered
    split <;> simp
  simp [PageReader.ReadToEndLoop, hnp, he, hd]

/-- The loop on a run of `k` reads without error followed by one that
reports `io.EOF`: the accumulated bytes are the deliveries in order. -/
theorem ReadToEndLoop_run {σ : Type} (sb : PageReader σ) (k : Nat) :
    ∀ (fuel : Nat) (w : World σ) (result buf : List Byte), k < fuel →
      (∀ i, i ≤ k → (sb.nthRead i w buf).n ≤ buf.length) →
      (∀ i, i < k → (sb.nthRead i w buf).err = none) →
      (sb.nthRead k w buf).err = some GoError.EOF →
      sb.ReadToEndLoop fuel w result buf =
        Outcome.ret
          { data := result ++
              ((List.range (k + 1)).map (fun i => (sb.nthRead i w buf).delivered)).flatten,
            err := none, world := (sb.nthRead k w buf).world } := by
  induction k with
  | zero =>
    intro fuel w result buf hf hn _ he
    obtain ⟨f, rfl⟩ : ∃ f, fuel = f + 1 := ⟨fuel - 1, by omega⟩
    have h0 := hn 0 (le_refl 0)
    simp only [PageReader.nthRead] at h0 he
    rw [ReadToEndLoop_eof sb f w result buf h0 he]
    simp [List.range_succ_eq_map, PageReader.nthRead]
  | succ k ih =>
    intro fuel w result buf hf hn hgo he
    obtain ⟨f, rfl⟩ : ∃ f, fuel = f + 1 := ⟨fuel - 1, by omega⟩
    have h0 := hn 0 (Nat.zero_le _)
    have e0 := hgo 0 (Nat.succ_pos k)
    simp only [PageReader.nthRead] at h0 e0
    rw [ReadToEndLoop_continue sb f w result buf h0 e0]
    have hlen := length_read_p sb w buf
    rw [ih f (sb.Read w buf).world (result ++ (sb.Read w buf).delivered) (sb.Read w buf).p
      (by omega)
      (fun i hi => by
        have := hn (i + 1) (by omega)
        simpa only [PageReader.nthRead, hlen] using this)
      (fun i hi => by
        have := hgo (i + 1) (by omega)
        simpa only [PageReader.nthRead] using this)
      (by simpa only [PageReader.nthRead] using he)]
    simp [List.range_succ_eq_map, PageReader.nthRead, List.map_map, Function.comp_def]


theorem ReadToEndLoop_run_err {σ : Type} (sb : PageReader σ) (e : GoError)
    (hne : e ≠ GoError.EOF) (k : Nat) :
    ∀ (fuel : Nat) (w : World σ) (result buf : List Byte), k < fuel →
      (∀ i, i ≤ k → (sb.nthRead i w buf).n ≤ buf.length) →
      (∀ i, i < k → (sb.nthRead i w buf).err = none) →
      (sb.nthRead k w buf).err = some e →
      sb.ReadToEndLoop fuel w result buf =
        Outcome.ret { data := [], err := some e, world := (sb.nthRead k w buf).world } := by
  induction k with
  | zero =>
    intro fuel w result buf hf hn _ he
    obtain ⟨f, rfl⟩ : ∃ f, fuel = f + 1 := ⟨fuel - 1, by omega⟩
    have h0 := hn 0 (le_refl 0)
    simp only [PageReader.nthRead] at h0 he
    rw [ReadToEndLoop_err sb f w result buf e h0 he hne]
    simp [PageReader.nthRead]
  | succ k ih =>
    intro fuel w result buf hf hn hgo he
    obtain ⟨f, rfl⟩ : ∃ f, fuel = f + 1 := ⟨fuel - 1, by omega⟩
    have h0 := hn 0 (Nat.zero_le _)
    have e0 := hgo 0 (Nat.succ_pos k)
    simp only [PageReader.nthRead] at h0 e0
    rw [ReadToEndLoop_continue sb f w result buf h0 e0]
    have hlen := length_read_p sb w buf
    rw [ih f (sb.Read w buf).world (result ++ (sb.Read w buf).delivered) (sb.Read w buf).p
      (by omega)
      (fun i hi => by
        have := hn (i + 1) (by omega)
        simpa only [PageReader.nthRead, hlen] using this)
      (fun i hi => by
        have := hgo (i + 1) (by omega)
        simpa only [PageReader.nthRead] using this)
      (by simpa only [PageReader.nthRead] using he)]
    simp [PageReader.nthRead]

theorem reads_Read {σ : Type} (sb : PageReader σ) (w : World σ) (p : List Byte) :
    (sb.Read w p).world.reads = w.reads + 1 := by
  unfold PageReader.Read
  split <;> rfl

theorem reads_nthRead {σ : Type} (sb : PageReader σ) (k : Nat) :
    ∀ (w : World σ) (buf : List Byte), (sb.nthRead k w buf).world.reads = w.reads + (k + 1) := by
  induction k with
  | zero => intro w buf; simp [PageReader.nthRead, reads_Read]
  | succ k ih =>
    intro w buf
    simp only [PageReader.nthRead]
    rw [ih, reads_Read]
    omega

theorem scriptRead_cons (W : Int) (F : Nat) (d : List Byte) (e : Option GoError)
    (rest : List (List Byte × Option GoError)) (a b : Nat) (p : List Byte) :
    (scriptReader W F).Read ⟨(d, e) :: rest, a, b⟩ p =
      { n := d.length, err := e, p := overwrite p d, world := ⟨rest, a + 1, b + 1⟩ } := by
  simp [PageReader.Read, scriptReader, scriptSession]

theorem scriptRead_nil (W : Int) (F : Nat) (a b : Nat) (p : List Byte) :
    (scriptReader W F).Read ⟨[], a, b⟩ p =
      { n := 0, err := some GoError.EOF, p := p, world := ⟨[], a + 1, b⟩ } := by
  simp [PageReader.Read, scriptReader, scriptSession]

theorem chunkSize_eq : chunkSize = 131072 := rfl

/-! ## ReadToEnd -/

/-- Claim C4: when the reads numbered 0 to `k - 1` of `ReadToEnd` report no
error, read `k` reports `io.EOF`, and no read claims more bytes than the
buffer holds, `ReadToEnd` (with fuel for `k + 1` iterations) returns a nil
error and exactly the bytes delivered by the reads 0 to `k`, concatenated in
the order of the reads, the bytes of the read that reports `io.EOF` included. -/
theorem ReadToEnd_returns_concatenation {σ : Type} (sb : PageReader σ) (w : World σ)
    (k fuel : Nat) (hfuel : k < fuel)
    (hfit : ∀ i, i ≤ k → (sb.nthRead i w (List.replicate chunkSize 0)).n ≤ chunkSize)
    (hgo : ∀ i, i < k → (sb.nthRead i w (List.replicate chunkSize 0)).err = none)
    (heof : (sb.nthRead k w (List.replicate chunkSize 0)).err = some GoError.EOF) :
    sb.ReadToEnd fuel w =
      Outcome.ret
        { data := ((List.range (k + 1)).map
            (fun i => (sb.nthRead i w (List.replicate chunkSize 0)).delivered)).flatten,
          err := none,
          world := (sb.nthRead k w (List.replicate chunkSize 0)).world } := by
  unfold PageReader.ReadToEnd
  rw [ReadToEndLoop_run sb k fuel w [] _ hfuel (by simpa using hfit) hgo heof]
  simp

/-- Two chunks and then the end of the page: the five bytes in order. -/
theorem C4_witness :
    (scriptReader 1 0).ReadToEnd 3 ⟨[([1, 2, 3], none), ([4, 5], none)], 0, 0⟩ =
      Outcome.ret { data := [1, 2, 3, 4, 5], err := none, world := ⟨[], 3, 2⟩ } := by
  have hc := chunkSize_eq
  rw [ReadToEnd_returns_concatenation (scriptReader 1 0) ⟨[([1, 2, 3], none), ([4, 5], none)], 0, 0⟩ 2 3
    (by decide)
    (by
      intro i hi
      interval_cases i <;> simp [PageReader.nthRead, scriptRead_cons, scriptRead_nil] <;> omega)
    (by
      intro i hi
      interval_cases i <;> simp [PageReader.nthRead, scriptRead_cons, scriptRead_nil])
    (by simp [PageReader.nthRead, scriptRead_cons, scriptRead_nil])]
  simp [List.range_succ_eq_map, PageReader.nthRead, scriptRead_cons, scriptRead_nil, ReadResult.delivered]
  have h1 : List.take 3 (overwrite (List.replicate chunkSize 0) [1, 2, 3]) = [1, 2, 3] :=
    take_overwrite _ [1, 2, 3] (by simp; omega)
  have h2 : List.take 2 (overwrite (overwrite (List.replicate chunkSize 0) [1, 2, 3]) [4, 5]) =
      [4, 5] :=
    take_overwrite _ [4, 5] (by simp [length_overwrite]; omega)
  rw [h1, h2]
  rfl


/-- Claim C5: when the reads numbered 0 to `k - 1` of `ReadToEnd` report no
error and read `k` reports an error `e` other than `io.EOF`, `ReadToEnd`
returns the nil slice and exactly `e`, whatever was accumulated before or
delivered with the error, and it stops there: the world it leaves is the one
left by read `k`, in which `Read` has run `k + 1` times. -/
theorem ReadToEnd_aborts_on_error {σ : Type} (sb : PageReader σ) (w : World σ)
    (k fuel : Nat) (e : GoError) (hfuel : k < fuel)
    (hfit : ∀ i, i ≤ k → (sb.nthRead i w (List.replicate chunkSize 0)).n ≤ chunkSize)
    (hgo : ∀ i, i < k → (sb.nthRead i w (List.replicate chunkSize 0)).err = none)
    (herr : (sb.nthRead k w (List.replicate chunkSize 0)).err = some e)
    (hne : e ≠ GoError.EOF) :
    sb.ReadToEnd fuel w =
        Outcome.ret
          { data := [], err := some e,
            world := (sb.nthRead k w (List.replicate chunkSize 0)).world } ∧
      (sb.nthRead k w (List.replicate chunkSize 0)).world.reads = w.reads + (k + 1) := by
  refine ⟨?_, reads_nthRead sb k w _⟩
  unfold PageReader.ReadToEnd
  exact ReadToEndLoop_run_err sb e hne k fuel w [] _ hfuel (by simpa using hfit) hgo herr

/-- An error with the second chunk: nil, that error, and the third never read. -/
theorem C5_witness :
    (scriptReader 1 0).ReadToEnd 9
        ⟨[([1, 2, 3], none), ([4, 5], some (GoError.other 7)), ([6], none)], 0, 0⟩ =
      Outcome.ret { data := [], err := some (GoError.other 7), world := ⟨[([6], none)], 2, 2⟩ } := by
  have hc := chunkSize_eq
  have h := ReadToEnd_aborts_on_error (scriptReader 1 0)
    ⟨[([1, 2, 3], none), ([4, 5], some (GoError.other 7)), ([6], none)], 0, 0⟩ 1 9
    (GoError.other 7) (by decide)
    (by
      intro i hi
      interval_cases i <;> simp [PageReader.nthRead, scriptRead_cons] <;> omega)
    (by
      intro i hi
      interval_cases i
      simp [PageReader.nthRead, scriptRead_cons])
    (by simp [PageReader.nthRead, scriptRead_cons])
    (by decide)
  rw [h.1]
  simp [PageReader.nthRead, scriptRead_cons]

/-! ## Read -/

theorem Read_of_endOfPage {σ : Type} (sb : PageReader σ) (w : World σ) (p : List Byte)
    (hend : sb.Session.EndOfPage w.session = true) :
    sb.Read w p =
      { n := 0, err := some GoError.EOF, p := p, world := { w with reads := w.reads + 1 } } := by
  simp [PageReader.Read, hend]

/-- Claim C6: when the session reports end-of-page, `Read(p)` returns 0 and
`io.EOF` without calling `ScanRead`: the count of `ScanRead` calls, the
session state and the buffer `p` are as before. -/
theorem Read_at_end_of_page {σ : Type} (sb : PageReader σ) (w : World σ) (p : List Byte)
    (hend : sb.Session.EndOfPage w.session = true) :
    (sb.Read w p).n = 0 ∧ (sb.Read w p).err = some GoError.EOF ∧
      (sb.Read w p).world.scanReads = w.scanReads ∧
      (sb.Read w p).world.session = w.session ∧ (sb.Read w p).p = p := by
  rw [Read_of_endOfPage sb w p hend]
  exact ⟨rfl, rfl, rfl, rfl, rfl⟩

/-- A read at the end of the page with a buffer of three bytes. -/
theorem C6_witness :
    ((scriptReader 4 0).Read ⟨[], 5, 3⟩ [9, 8, 7]).n = 0 ∧
      ((scriptReader 4 0).Read ⟨[], 5, 3⟩ [9, 8, 7]).err = some GoError.EOF ∧
      ((scriptReader 4 0).Read ⟨[], 5, 3⟩ [9, 8, 7]).world.scanReads = 3 ∧
      ((scriptReader 4 0).Read ⟨[], 5, 3⟩ [9, 8, 7]).world.session = [] ∧
      ((scriptReader 4 0).Read ⟨[], 5, 3⟩ [9, 8, 7]).p = [9, 8, 7] :=
  Read_at_end_of_page (scriptReader 4 0) ⟨[], 5, 3⟩ [9, 8, 7] rfl

/-- Claim C7: when the session does not report end-of-page, `Read(p)` calls
`ScanRead(p)` exactly once and returns the count and the error of that call
as they are; the session and the buffer are what that one call left. -/
theorem Read_delegates_to_ScanRead {σ : Type} (sb : PageReader σ) (w : World σ)
    (p : List Byte) (hmore : sb.Session.EndOfPage w.session = false) :
    (sb.Read w p).n = (sb.Session.ScanRead w.session p).n ∧
      (sb.Read w p).err = (sb.Session.ScanRead w.session p).err ∧
      (sb.Read w p).world.scanReads = w.scanReads + 1 ∧
      (sb.Read w p).world.session = (sb.Session.ScanRead w.session p).session ∧
      (sb.Read w p).p = overwrite p (sb.Session.ScanRead w.session p).stored := by
  simp [PageReader.Read, hmore]

/-- A read that hands on two bytes and an error of the session. -/
theorem C7_witness :
    ((scriptReader 4 0).Read ⟨[([1, 2], some (GoError.other 3))], 0, 0⟩ [9, 8, 7]).n = 2 ∧
      ((scriptReader 4 0).Read ⟨[([1, 2], some (GoError.other 3))], 0, 0⟩ [9, 8, 7]).err =
        some (GoError.other 3) ∧
      ((scriptReader 4 0).Read ⟨[([1, 2], some (GoError.other 3))], 0, 0⟩ [9, 8, 7]).world.scanReads
        = 1 ∧
      ((scriptReader 4 0).Read ⟨[([1, 2], some (GoError.other 3))], 0, 0⟩ [9, 8, 7]).world.session
        = [] ∧
      ((scriptReader 4 0).Read ⟨[([1, 2], some (GoError.other 3))], 0, 0⟩ [9, 8, 7]).p =
        [1, 2, 7] :=
  Read_delegates_to_ScanRead (scriptReader 4 0) ⟨[([1, 2], some (GoError.other 3))], 0, 0⟩
    [9, 8, 7] rfl

theorem endOfPage_of_later {σ : Type} (sb : PageReader σ) (owner : σ → σ → Prop)
    (w w1 : World σ) (hend : sb.Session.EndOfPage w.session = true)
    (hkeep : ∀ s s1, sb.Session.EndOfPage s = true → owner s s1 →
      sb.Session.EndOfPage s1 = true)
    (hr : sb.LaterWorld owner w w1) :
    sb.Session.EndOfPage w1.session = true ∧ w1.scanReads = w.scanReads := by
  induction hr with
  | start => exact ⟨hend, rfl⟩
  | read w2 p _ ih =>
    rw [Read_of_endOfPage sb w2 p ih.1]
    exact ih
  | moved w2 s1 _ hstep ih => exact ⟨hkeep w2.session s1 ih.1 hstep, ih.2⟩

/-- Claim C8, as stated, fails: `Read` keeps no record of the end of the page.
The scripted session is at end-of-page; its owner then starts the next page;
in that later state a read of the same page reader delivers the byte 9 with
a nil error. -/
theorem C8_counterexample :
    scriptSession.EndOfPage ([] : List (List Byte × Option GoError)) = true ∧
      (scriptReader 1 0).LaterWorld nextPageOwner ⟨[], 1, 0⟩ ⟨[([9], none)], 1, 0⟩ ∧
      ((scriptReader 1 0).Read ⟨[([9], none)], 1, 0⟩ [0, 0]).n = 1 ∧
      ((scriptReader 1 0).Read ⟨[([9], none)], 1, 0⟩ [0, 0]).err = none ∧
      ((scriptReader 1 0).Read ⟨[([9], none)], 1, 0⟩ [0, 0]).delivered = [9] :=
  ⟨rfl, PageReader.LaterWorld.moved ⟨[], 1, 0⟩ [([9], none)] PageReader.LaterWorld.start rfl,
    rfl, rfl, rfl⟩

/-- Claim C8, amended: once the session reports end-of-page in a world `w`,
in every later world, reached by reads of this page reader (with any
buffers) and by steps of the owner of the session that leave it at
end-of-page, the session still reports end-of-page, `ScanRead` was never
called, and a read returns 0 with `io.EOF`, delivers no byte and leaves its
buffer alone.  The reads themselves never take the session away from the end
of the page; only its owner can. -/
theorem Read_after_end_of_page {σ : Type} (sb : PageReader σ) (owner : σ → σ → Prop)
    (w w1 : World σ) (p : List Byte) (hend : sb.Session.EndOfPage w.session = true)
    (hkeep : ∀ s s1, sb.Session.EndOfPage s = true → owner s s1 →
      sb.Session.EndOfPage s1 = true)
    (hr : sb.LaterWorld owner w w1) :
    sb.Session.EndOfPage w1.session = true ∧ w1.scanReads = w.scanReads ∧
      (sb.Read w1 p).n = 0 ∧ (sb.Read w1 p).err = some GoError.EOF ∧
      (sb.Read w1 p).delivered = [] ∧ (sb.Read w1 p).p = p ∧
      (sb.Read w1 p).world.session = w1.session := by
  have hs := endOfPage_of_later sb owner w w1 hend hkeep hr
  rw [Read_of_endOfPage sb w1 p hs.1]
  exact ⟨hs.1, hs.2, rfl, rfl, rfl, rfl, rfl⟩

/-- A read, a step of an owner who leaves the session at the end of the page,
another read, and then the read observed. -/
theorem C8_witness :
    scriptSession.EndOfPage ([] : List (List Byte × Option GoError)) = true ∧
      ((scriptReader 4 0).Read ⟨[], 2, 0⟩ [4, 5, 6]).n = 0 ∧
      ((scriptReader 4 0).Read ⟨[], 2, 0⟩ [4, 5, 6]).err = some GoError.EOF ∧
      ((scriptReader 4 0).Read ⟨[], 2, 0⟩ [4, 5, 6]).delivered = [] ∧
      ((scriptReader 4 0).Read ⟨[], 2, 0⟩ [4, 5, 6]).p = [4, 5, 6] := by
  have hstep1 : (scriptReader 4 0).LaterWorld idleOwner ⟨[], 0, 0⟩ ⟨[], 1, 0⟩ :=
    PageReader.LaterWorld.read ⟨[], 0, 0⟩ [1, 2] PageReader.LaterWorld.start
  have hstep2 : (scriptReader 4 0).LaterWorld idleOwner ⟨[], 0, 0⟩ ⟨[], 1, 0⟩ :=
    PageReader.LaterWorld.moved ⟨[], 1, 0⟩ [] hstep1 rfl
  have hstep3 : (scriptReader 4 0).LaterWorld idleOwner ⟨[], 0, 0⟩ ⟨[], 2, 0⟩ :=
    PageReader.LaterWorld.read ⟨[], 1, 0⟩ [3] hstep2
  have h := Read_after_end_of_page (scriptReader 4 0) idleOwner ⟨[], 0, 0⟩ ⟨[], 2, 0⟩
    [4, 5, 6] rfl
    (by
      intro s s1 _ hs
      rw [show s1 = [] from hs]
      rfl)
    hstep3
  exact ⟨rfl, h.2.2.1, h.2.2.2.1, h.2.2.2.2.1, h.2.2.2.2.2.1⟩

/-! ## The raw decode: arithmetic, pixels, loops -/

theorem rawHeight_eq (rawData : List Byte) (W : Int) (hW : 0 < W) :
    rawHeight rawData W = (rawData.length : Int) / (3 * W) ∧
      rawHeight rawData W = (rawData.length : Int).tdiv (3 * W) ∧
      0 ≤ rawHeight rawData W := by
  have h3 : (0 : Int) ≤ 3 := by decide
  have hL : (0 : Int) ≤ (rawData.length : Int) := Int.ofNat_nonneg _
  have h1 : rawHeight rawData W = (rawData.length : Int) / (3 * W) := by
    unfold rawHeight
    rw [Int.tdiv_eq_ediv hL h3, Int.tdiv_eq_ediv (Int.ediv_nonneg hL h3) (le_of_lt hW)]
    obtain ⟨n, rfl⟩ := Int.eq_ofNat_of_zero_le (le_of_lt hW)
    exact_mod_cast Nat.div_div_eq_div_mul rawData.length 3 n
  refine ⟨h1, ?_, ?_⟩
  · rw [h1, Int.tdiv_eq_ediv hL (by omega)]
  · rw [h1]; exact Int.ediv_nonneg hL (by omega)

theorem rawIndex_in_range (rawData : List Byte) (W x y : Int) (hW : 0 < W)
    (hx0 : 0 ≤ x) (hx : x < W) (hy0 : 0 ≤ y) (hy : y < rawHeight rawData W) :
    0 ≤ (y * W + x) * 3 ∧ (y * W + x) * 3 + 2 < rawData.length := by
  have hh := (rawHeight_eq rawData W hW).1
  rw [hh] at hy
  have h3W : (0 : Int) < 3 * W := by omega
  have h1 : (y + 1) ≤ (rawData.length : Int) / (3 * W) := by omega
  have h2 : (y + 1) * (3 * W) ≤ (rawData.length : Int) :=
    (Int.le_ediv_iff_mul_le h3W).1 h1
  have h4 : 0 ≤ y * W := Int.mul_nonneg hy0 (le_of_lt hW)
  constructor
  · nlinarith
  · nlinarith


theorem getD_set4_other (l : List Byte) (i j : Nat) (r g b a : Byte)
    (h : j < i ∨ i + 3 < j) :
    ((((l.set i r).set (i + 1) g).set (i + 2) b).set (i + 3) a).getD j 0 = l.getD j 0 := by
  simp only [List.getD_eq_getElem?_getD, List.getElem?_set, List.length_set]
  have h0 : ¬ i = j := by omega
  have h1 : ¬ i + 1 = j := by omega
  have h2 : ¬ i + 2 = j := by omega
  have h3 : ¬ i + 3 = j := by omega
  simp [h0, h1, h2, h3]

theorem getD_set4_same (l : List Byte) (i : Nat) (r g b a : Byte) (h : i + 3 < l.length) :
    ((((l.set i r).set (i + 1) g).set (i + 2) b).set (i + 3) a).getD i 0 = r ∧
    ((((l.set i r).set (i + 1) g).set (i + 2) b).set (i + 3) a).getD (i + 1) 0 = g ∧
    ((((l.set i r).set (i + 1) g).set (i + 2) b).set (i + 3) a).getD (i + 2) 0 = b ∧
    ((((l.set i r).set (i + 1) g).set (i + 2) b).set (i + 3) a).getD (i + 3) 0 = a := by
  have h0 : i < l.length := by omega
  have h1 : i + 1 < l.length := by omega
  have h2 : i + 2 < l.length := by omega
  simp [List.getD_eq_getElem?_getD, List.getElem?_set, h, h0, h1, h2]

theorem Canvas_Set (m : RGBAImage) (W h x y : Int) (c : RGBA) (hm : m.Canvas W h) :
    (m.Set x y c).Canvas W h := by
  unfold RGBAImage.Set
  split
  · exact hm
  · obtain ⟨h1, h2, h3⟩ := hm
    exact ⟨h1, h2, by simpa using h3⟩

theorem In_canvas (m : RGBAImage) (W h x y : Int) (hm : m.Canvas W h) :
    Point.In { X := x, Y := y } m.Rect = true ↔ (0 ≤ x ∧ x < W) ∧ 0 ≤ y ∧ y < h := by
  rw [hm.1]
  simp [Point.In, and_assoc]

theorem PixOffset_canvas (m : RGBAImage) (W h : Int) (x y : Nat) (hm : m.Canvas W h) :
    m.PixOffset x y = 4 * (y * W + x) := by
  unfold RGBAImage.PixOffset
  rw [hm.1, hm.2.1]
  simp only [sub_zero]
  ring


theorem pixelIndex_ne (W x y x1 y1 : Nat) (hx : x < W) (hx1 : x1 < W)
    (hne : ¬ (x1 = x ∧ y1 = y)) : y1 * W + x1 ≠ y * W + x := by
  intro heq
  rcases Nat.lt_trichotomy y1 y with hlt | heq1 | hgt
  · have : (y1 + 1) * W ≤ y * W := Nat.mul_le_mul_right W hlt
    rw [Nat.add_mul] at this
    omega
  · subst heq1
    exact hne ⟨by omega, rfl⟩
  · have : (y + 1) * W ≤ y1 * W := Nat.mul_le_mul_right W hgt
    rw [Nat.add_mul] at this
    omega

theorem pixelIndex_lt (W h x y : Nat) (hx : x < W) (hy : y < h) :
    4 * (y * W + x) + 3 < 4 * W * h := by
  have h1 : (y + 1) * W ≤ h * W := Nat.mul_le_mul_right W hy
  rw [Nat.add_mul] at h1
  have h2 : 4 * W * h = 4 * (h * W) := by ring
  omega

theorem RGBAAt_Set (m : RGBAImage) (W h x y x1 y1 : Int) (c : RGBA) (hm : m.Canvas W h)
    (hx0 : 0 ≤ x) (hx : x < W) (hy0 : 0 ≤ y) (hy : y < h) :
    (m.Set x y c).RGBAAt x1 y1 = if x1 = x ∧ y1 = y then c else m.RGBAAt x1 y1 := by
  have hin : Point.In { X := x, Y := y } m.Rect = true :=
    (In_canvas m W h x y hm).2 ⟨⟨hx0, hx⟩, hy0, hy⟩
  by_cases hin1 : Point.In { X := x1, Y := y1 } m.Rect = true
  · have hb := (In_canvas m W h x1 y1 hm).1 hin1
    obtain ⟨⟨hx10, hx1⟩, hy10, hy1⟩ := hb
    have hW0 : 0 ≤ W := by omega
    have hh0 : 0 ≤ h := by omega
    lift x to Nat using hx0
    lift y to Nat using hy0
    lift x1 to Nat using hx10
    lift y1 to Nat using hy10
    lift W to Nat using hW0
    lift h to Nat using hh0
    have hlen : m.Pix.length = 4 * W * h := by exact_mod_cast hm.2.2
    have ho : (m.PixOffset x y).toNat = 4 * (y * W + x) := by
      rw [PixOffset_canvas m W h x y hm]
      exact_mod_cast Int.toNat_ofNat (4 * (y * W + x))
    have ho1 : (m.PixOffset x1 y1).toNat = 4 * (y1 * W + x1) := by
      rw [PixOffset_canvas m W h x1 y1 hm]
      exact_mod_cast Int.toNat_ofNat (4 * (y1 * W + x1))
    have hxW : x < W := by exact_mod_cast hx
    have hx1W : x1 < W := by exact_mod_cast hx1
    have hyh : y < h := by exact_mod_cast hy
    have hoS : ((m.Set x y c).PixOffset x1 y1).toNat = 4 * (y1 * W + x1) := by
      rw [PixOffset_canvas _ W h x1 y1 (Canvas_Set m W h x y c hm)]
      exact_mod_cast Int.toNat_ofNat (4 * (y1 * W + x1))
    have hinS : Point.In { X := (x1 : Int), Y := (y1 : Int) } (m.Set x y c).Rect = true :=
      (In_canvas _ W h x1 y1 (Canvas_Set m W h x y c hm)).2 ⟨⟨by omega, hx1⟩, by omega, hy1⟩
    have hPix : (m.Set x y c).Pix =
        (((m.Pix.set (4 * (y * W + x)) c.R).set (4 * (y * W + x) + 1) c.G).set
          (4 * (y * W + x) + 2) c.B).set (4 * (y * W + x) + 3) c.A := by
      simp [RGBAImage.Set, hin, ho]
    by_cases hsame : (x1 : Int) = x ∧ (y1 : Int) = y
    · rw [if_pos hsame]
      obtain ⟨e1, e2⟩ := hsame
      have e1n : x1 = x := by exact_mod_cast e1
      have e2n : y1 = y := by exact_mod_cast e2
      subst e1n; subst e2n
      have hs := getD_set4_same m.Pix (4 * (y1 * W + x1)) c.R c.G c.B c.A
        (by rw [hlen]; exact pixelIndex_lt W h x1 y1 hxW hyh)
      simp only [RGBAImage.RGBAAt, hinS, Bool.not_true, Bool.false_eq_true, if_false, hoS, hPix,
        hs.1, hs.2.1, hs.2.2.1, hs.2.2.2]
    · rw [if_neg hsame]
      have hne : y1 * W + x1 ≠ y * W + x :=
        pixelIndex_ne W x y x1 y1 hxW hx1W (by
          intro hc; exact hsame ⟨by exact_mod_cast hc.1, by exact_mod_cast hc.2⟩)
      simp only [RGBAImage.RGBAAt, hinS, hin1, Bool.not_true, Bool.false_eq_true, if_false, hoS,
        ho1, hPix]
      rw [getD_set4_other _ _ (4 * (y1 * W + x1)) _ _ _ _ (by omega),
        getD_set4_other _ _ (4 * (y1 * W + x1) + 1) _ _ _ _ (by omega),
        getD_set4_other _ _ (4 * (y1 * W + x1) + 2) _ _ _ _ (by omega),
        getD_set4_other _ _ (4 * (y1 * W + x1) + 3) _ _ _ _ (by omega)]
  · have hne : ¬ (x1 = x ∧ y1 = y) := by
      intro hc
      rw [hc.1, hc.2] at hin1
      exact hin1 hin
    rw [if_neg hne]
    have hinS : ¬ Point.In { X := x1, Y := y1 } (m.Set x y c).Rect = true := by
      rw [(Canvas_Set m W h x y c hm).1, ← hm.1]
      exact hin1
    simp [RGBAImage.RGBAAt, hinS, hin1]


theorem index_of_in_range (s : List Byte) (i : Int) (h0 : 0 ≤ i) (h1 : i < s.length) :
    index s i = Outcome.ret (s.getD i.toNat 0) := by
  unfold index
  rw [if_pos ⟨h0, h1⟩]

theorem decodeRow_spec (rawData : List Byte) (W h y : Int) (hy0 : 0 ≤ y) (hy : y < h)
    (hidx : ∀ x, 0 ≤ x → x < W →
      0 ≤ (y * W + x) * 3 ∧ (y * W + x) * 3 + 2 < rawData.length) :
    ∀ (todo : Nat) (x : Int) (img : RGBAImage), 0 ≤ x → x + todo = W → img.Canvas W h →
      ∃ img1, decodeRow rawData W y todo x img = Outcome.ret img1 ∧ img1.Canvas W h ∧
        ∀ x1 y1, img1.RGBAAt x1 y1 =
          if (x ≤ x1 ∧ x1 < W) ∧ y1 = y then rawPixel rawData W x1 y1 else img.RGBAAt x1 y1 := by
  intro todo
  induction todo with
  | zero =>
    intro x img _ hxW hc
    refine ⟨img, rfl, hc, ?_⟩
    intro x1 y1
    have : ¬ ((x ≤ x1 ∧ x1 < W) ∧ y1 = y) := by
      intro hcon
      simp only [Nat.cast_zero, add_zero] at hxW
      omega
    rw [if_neg this]
  | succ todo ih =>
    intro x img hx0 hxW hc
    have hxlt : x < W := by push_cast at hxW; omega
    obtain ⟨hi0, hi2⟩ := hidx x hx0 hxlt
    have hstep : decodeRow rawData W y (todo + 1) x img =
        decodeRow rawData W y todo (x + 1) (img.Set x y (rawPixel rawData W x y)) := by
      simp only [decodeRow, rawPixel]
      rw [index_of_in_range rawData _ hi0 (by omega),
        index_of_in_range rawData _ (by omega) (by omega),
        index_of_in_range rawData _ (by omega) (by omega)]
    obtain ⟨img1, hrun, hc1, hat⟩ := ih (x + 1) (img.Set x y (rawPixel rawData W x y))
      (by omega) (by push_cast at hxW; omega) (Canvas_Set img W h x y _ hc)
    refine ⟨img1, by rw [hstep, hrun], hc1, ?_⟩
    intro x1 y1
    rw [hat x1 y1, RGBAAt_Set img W h x y x1 y1 _ hc hx0 hxlt hy0 hy]
    by_cases hy1 : y1 = y
    · by_cases hx1 : x1 = x
      · subst hx1; subst hy1
        have h1 : ¬ ((x1 + 1 ≤ x1 ∧ x1 < W) ∧ y1 = y1) := by omega
        have h2 : (x1 ≤ x1 ∧ x1 < W) ∧ y1 = y1 := ⟨⟨le_refl _, hxlt⟩, rfl⟩
        rw [if_neg h1, if_pos ⟨rfl, rfl⟩, if_pos h2]
      · have h3 : ¬ (x1 = x ∧ y1 = y) := fun hcon => hx1 hcon.1
        rw [if_neg h3]
        by_cases h4 : (x + 1 ≤ x1 ∧ x1 < W) ∧ y1 = y
        · rw [if_pos h4, if_pos ⟨⟨by omega, h4.1.2⟩, hy1⟩]
        · have h5 : ¬ ((x ≤ x1 ∧ x1 < W) ∧ y1 = y) := by
            intro hcon
            exact h4 ⟨⟨by omega, hcon.1.2⟩, hy1⟩
          rw [if_neg h4, if_neg h5]
    · have h1 : ¬ ((x + 1 ≤ x1 ∧ x1 < W) ∧ y1 = y) := fun hcon => hy1 hcon.2
      have h2 : ¬ ((x ≤ x1 ∧ x1 < W) ∧ y1 = y) := fun hcon => hy1 hcon.2
      have h3 : ¬ (x1 = x ∧ y1 = y) := fun hcon => hy1 hcon.2
      rw [if_neg h1, if_neg h3, if_neg h2]

theorem decodeRows_spec (rawData : List Byte) (W h : Int) (hW : 0 < W)
    (hidx : ∀ x y, 0 ≤ x → x < W → 0 ≤ y → y < h →
      0 ≤ (y * W + x) * 3 ∧ (y * W + x) * 3 + 2 < rawData.length) :
    ∀ (todo : Nat) (y : Int) (img : RGBAImage), 0 ≤ y → y + todo = h → img.Canvas W h →
      ∃ img1, decodeRows rawData W todo y img = Outcome.ret img1 ∧ img1.Canvas W h ∧
        ∀ x1 y1, img1.RGBAAt x1 y1 =
          if (0 ≤ x1 ∧ x1 < W) ∧ y ≤ y1 ∧ y1 < h then rawPixel rawData W x1 y1
          else img.RGBAAt x1 y1 := by
  intro todo
  induction todo with
  | zero =>
    intro y img _ hyh hc
    refine ⟨img, rfl, hc, ?_⟩
    intro x1 y1
    have : ¬ ((0 ≤ x1 ∧ x1 < W) ∧ y ≤ y1 ∧ y1 < h) := by
      intro hcon
      simp only [Nat.cast_zero, add_zero] at hyh
      omega
    rw [if_neg this]
  | succ todo ih =>
    intro y img hy0 hyh hc
    have hylt : y < h := by push_cast at hyh; omega
    obtain ⟨img1, hrow, hc1, hat1⟩ := decodeRow_spec rawData W h y hy0 hylt
      (fun x hx0 hx => hidx x y hx0 hx hy0 hylt) W.toNat 0 img (le_refl 0)
      (by rw [Int.toNat_of_nonneg (le_of_lt hW)]; omega) hc
    obtain ⟨img2, hrows, hc2, hat2⟩ := ih (y + 1) img1 (by omega)
      (by push_cast at hyh; omega) hc1
    refine ⟨img2, by simp only [decodeRows, hrow, hrows], hc2, ?_⟩
    intro x1 y1
    rw [hat2 x1 y1, hat1 x1 y1]
    by_cases hx : 0 ≤ x1 ∧ x1 < W
    · by_cases hy1 : y1 = y
      · subst hy1
        have h1 : ¬ ((0 ≤ x1 ∧ x1 < W) ∧ y1 + 1 ≤ y1 ∧ y1 < h) := by omega
        rw [if_neg h1, if_pos ⟨hx, rfl⟩, if_pos ⟨hx, le_refl _, hylt⟩]
      · have h2 : ¬ ((0 ≤ x1 ∧ x1 < W) ∧ y1 = y) := fun hcon => hy1 hcon.2
        by_cases h3 : (0 ≤ x1 ∧ x1 < W) ∧ y + 1 ≤ y1 ∧ y1 < h
        · rw [if_pos h3, if_pos ⟨hx, by omega, h3.2.2⟩]
        · have h4 : ¬ ((0 ≤ x1 ∧ x1 < W) ∧ y ≤ y1 ∧ y1 < h) := by
            intro hcon
            exact h3 ⟨hx, by omega, hcon.2.2⟩
          rw [if_neg h3, if_neg h2, if_neg h4]
    · have h1 : ¬ ((0 ≤ x1 ∧ x1 < W) ∧ y + 1 ≤ y1 ∧ y1 < h) := fun hcon => hx hcon.1
      have h2 : ¬ ((0 ≤ x1 ∧ x1 < W) ∧ y1 = y) := fun hcon => hx hcon.1
      have h3 : ¬ ((0 ≤ x1 ∧ x1 < W) ∧ y ≤ y1 ∧ y1 < h) := fun hcon => hx hcon.1
      rw [if_neg h1, if_neg h2, if_neg h3]

theorem wrapInt_of_fits (v : Int) (h0 : 0 ≤ v) (h1 : v < 9223372036854775808) :
    wrapInt v = v := by
  unfold wrapInt
  omega

theorem Rect_of_nonneg (W h : Int) (hW : 0 ≤ W) (hh : 0 ≤ h) :
    Rect 0 0 W h = { Min := { X := 0, Y := 0 }, Max := { X := W, Y := h } } := by
  unfold Rect
  rw [if_neg (by omega), if_neg (by omega)]

theorem NewRGBA_of_fits (W h : Int) (hW : 0 ≤ W) (hh : 0 ≤ h)
    (h62 : W < 4611686018427387904) (hbuf : 4 * W * h < 9223372036854775808) :
    NewRGBA (Rect 0 0 W h) =
      Outcome.ret { Pix := List.replicate (4 * W * h).toNat 0, Stride := wrapInt (4 * W),
                    Rect := { Min := { X := 0, Y := 0 }, Max := { X := W, Y := h } } } := by
  have hnn : 0 ≤ 4 * W * h := by positivity
  have hm : mul3NonNeg 4 W h = 4 * W * h := by
    unfold mul3NonNeg
    rw [if_neg (by omega), if_neg (by omega), if_neg (by omega), if_neg (by omega)]
  rw [Rect_of_nonneg W h hW hh]
  simp only [NewRGBA, pixelBufferLength, Rectangle.Dx, Rectangle.Dy, sub_zero, hm]
  rw [if_neg (by omega)]

theorem NewRGBA_outcome (r : Rectangle) :
    (∃ m, NewRGBA r = Outcome.ret m) ∨ NewRGBA r = Outcome.panic Panic.hugeRectangle := by
  unfold NewRGBA pixelBufferLength
  by_cases h : mul3NonNeg 4 r.Dx r.Dy < 0
  · right; simp [h]
  · left; simp [h]

theorem Canvas_of_fits (W h : Int) (hW : 0 ≤ W) (hh : 0 < h)
    (hbuf : 4 * W * h < 9223372036854775808) :
    RGBAImage.Canvas
      { Pix := List.replicate (4 * W * h).toNat 0, Stride := wrapInt (4 * W),
        Rect := { Min := { X := 0, Y := 0 }, Max := { X := W, Y := h } } } W h := by
  have hnn : 0 ≤ 4 * W * h := by positivity
  have h4 : 4 * W ≤ 4 * W * h := by nlinarith
  refine ⟨rfl, wrapInt_of_fits _ (by omega) (by omega), ?_⟩
  simp only [List.length_replicate]
  exact Int.toNat_of_nonneg hnn

theorem rawHeight_mul_le (rawData : List Byte) (W : Int) (hW : 0 < W) :
    3 * W * rawHeight rawData W ≤ rawData.length := by
  rw [(rawHeight_eq rawData W hW).1]
  exact Int.mul_ediv_self_le (by omega)

theorem fits_of_length (rawData : List Byte) (W : Int) (hW : 0 < W)
    (hL : (rawData.length : Int) < 6917529027641081856) :
    4 * W * rawHeight rawData W < 9223372036854775808 := by
  have h1 := rawHeight_mul_le rawData W hW
  have h2 : 3 * W * rawHeight rawData W = 3 * (W * rawHeight rawData W) := by ring
  have h3 : 4 * W * rawHeight rawData W = 4 * (W * rawHeight rawData W) := by ring
  rw [h2] at h1
  rw [h3]
  omega

theorem decodeRawRGB24_of_NewRGBA (rawData : List Byte) (W : Int) (hW : W ≠ 0)
    (img : RGBAImage)
    (hnew : NewRGBA (Rect 0 0 W (rawHeight rawData W)) = Outcome.ret img) :
    decodeRawRGB24 rawData W = decodeRows rawData W (rawHeight rawData W).toNat 0 img := by
  unfold rawHeight at hnew
  unfold decodeRawRGB24
  rw [if_neg hW]
  simp only [hnew]
  rfl

theorem decodeRawRGB24_of_NewRGBA_panic (rawData : List Byte) (W : Int) (hW : W ≠ 0)
    (e : Panic)
    (hnew : NewRGBA (Rect 0 0 W (rawHeight rawData W)) = Outcome.panic e) :
    decodeRawRGB24 rawData W = Outcome.panic e := by
  unfold rawHeight at hnew
  unfold decodeRawRGB24
  rw [if_neg hW]
  simp only [hnew]

theorem decodeRawRGB24_spec (rawData : List Byte) (W : Int) (hW : 0 < W)
    (h62 : W < 4611686018427387904)
    (hbuf : 4 * W * rawHeight rawData W < 9223372036854775808) :
    ∃ m, decodeRawRGB24 rawData W = Outcome.ret m ∧
      m.Rect = { Min := { X := 0, Y := 0 }, Max := { X := W, Y := rawHeight rawData W } } ∧
      (m.Pix.length : Int) = 4 * W * rawHeight rawData W ∧
      m.Stride = wrapInt (4 * W) ∧
      ∀ x y, 0 ≤ x → x < W → 0 ≤ y → y < rawHeight rawData W →
        m.RGBAAt x y = rawPixel rawData W x y := by
  have hh := (rawHeight_eq rawData W hW).2.2
  have hnew := NewRGBA_of_fits W (rawHeight rawData W) (le_of_lt hW) hh h62 hbuf
  have hdec := decodeRawRGB24_of_NewRGBA rawData W (by omega) _ hnew
  have hnn : 0 ≤ 4 * W * rawHeight rawData W := by positivity
  rcases eq_or_lt_of_le hh with h0 | hpos
  · have hrun : decodeRawRGB24 rawData W =
        Outcome.ret
          { Pix := List.replicate (4 * W * rawHeight rawData W).toNat 0,
            Stride := wrapInt (4 * W),
            Rect := { Min := { X := 0, Y := 0 }, Max := { X := W, Y := rawHeight rawData W } } } := by
      rw [hdec, ← h0]
      rfl
    refine ⟨_, hrun, rfl, ?_, rfl, ?_⟩
    · simp only [List.length_replicate]
      exact Int.toNat_of_nonneg hnn
    · intro x y _ _ hy0 hy
      omega
  · have hc := Canvas_of_fits W (rawHeight rawData W) (le_of_lt hW) hpos hbuf
    obtain ⟨m, hrun, hcm, hat⟩ := decodeRows_spec rawData W (rawHeight rawData W) hW
      (fun x y hx0 hx hy0 hy => rawIndex_in_range rawData W x y hW hx0 hx hy0 hy)
      (rawHeight rawData W).toNat 0 _ (le_refl 0)
      (by rw [Int.toNat_of_nonneg hh]; omega) hc
    refine ⟨m, by rw [hdec]; exact hrun, hcm.1, hcm.2.2, hcm.2.1.trans hc.2.1.symm, ?_⟩
    intro x y hx0 hx hy0 hy
    rw [hat x y, if_pos ⟨⟨hx0, hx⟩, hy0, hy⟩]

theorem decodeRawRGB24_spec_of_length (rawData : List Byte) (W : Int) (hW : 0 < W)
    (h62 : W < 4611686018427387904)
    (hL : (rawData.length : Int) < 6917529027641081856) :
    ∃ m, decodeRawRGB24 rawData W = Outcome.ret m ∧
      m.Rect = { Min := { X := 0, Y := 0 }, Max := { X := W, Y := rawHeight rawData W } } ∧
      (m.Pix.length : Int) = 4 * W * rawHeight rawData W ∧
      m.Stride = wrapInt (4 * W) ∧
      ∀ x y, 0 ≤ x → x < W → 0 ≤ y → y < rawHeight rawData W →
        m.RGBAAt x y = rawPixel rawData W x y :=
  decodeRawRGB24_spec rawData W hW h62 (fits_of_length rawData W hW hL)

theorem decodeRow_returns (rawData : List Byte) (W y : Int)
    (hidx : ∀ x, 0 ≤ x → x < W →
      0 ≤ (y * W + x) * 3 ∧ (y * W + x) * 3 + 2 < rawData.length) :
    ∀ (todo : Nat) (x : Int) (img : RGBAImage), 0 ≤ x → x + todo = W →
      ∃ img1, decodeRow rawData W y todo x img = Outcome.ret img1 := by
  intro todo
  induction todo with
  | zero => intro x img _ _; exact ⟨img, rfl⟩
  | succ todo ih =>
    intro x img hx0 hxW
    have hxlt : x < W := by push_cast at hxW; omega
    obtain ⟨hi0, hi2⟩ := hidx x hx0 hxlt
    obtain ⟨img1, hrun⟩ := ih (x + 1) (img.Set x y (rawPixel rawData W x y)) (by omega)
      (by push_cast at hxW; omega)
    refine ⟨img1, ?_⟩
    rw [← hrun]
    simp only [decodeRow, rawPixel]
    rw [index_of_in_range rawData _ hi0 (by omega),
      index_of_in_range rawData _ (by omega) (by omega),
      index_of_in_range rawData _ (by omega) (by omega)]

theorem decodeRows_returns (rawData : List Byte) (W h : Int) (hW : 0 < W)
    (hidx : ∀ x y, 0 ≤ x → x < W → 0 ≤ y → y < h →
      0 ≤ (y * W + x) * 3 ∧ (y * W + x) * 3 + 2 < rawData.length) :
    ∀ (todo : Nat) (y : Int) (img : RGBAImage), 0 ≤ y → y + todo = h →
      ∃ img1, decodeRows rawData W todo y img = Outcome.ret img1 := by
  intro todo
  induction todo with
  | zero => intro y img _ _; exact ⟨img, rfl⟩
  | succ todo ih =>
    intro y img hy0 hyh
    have hylt : y < h := by push_cast at hyh; omega
    obtain ⟨img1, hrow⟩ := decodeRow_returns rawData W y
      (fun x hx0 hx => hidx x y hx0 hx hy0 hylt) W.toNat 0 img (le_refl 0)
      (by rw [Int.toNat_of_nonneg (le_of_lt hW)]; omega)
    obtain ⟨img2, hrows⟩ := ih (y + 1) img1 (by omega) (by push_cast at hyh; omega)
    exact ⟨img2, by simp only [decodeRows, hrow, hrows]⟩

theorem decodeRawRGB24_outcome (rawData : List Byte) (W : Int) (hW : 0 < W) :
    (∃ m, decodeRawRGB24 rawData W = Outcome.ret m) ∨
      decodeRawRGB24 rawData W = Outcome.panic Panic.hugeRectangle := by
  rcases NewRGBA_outcome (Rect 0 0 W (rawHeight rawData W)) with ⟨img, hnew⟩ | hpanic
  · left
    rw [decodeRawRGB24_of_NewRGBA rawData W (by omega) img hnew]
    exact decodeRows_returns rawData W (rawHeight rawData W) hW
      (fun x y hx0 hx hy0 hy => rawIndex_in_range rawData W x y hW hx0 hx hy0 hy)
      (rawHeight rawData W).toNat 0 img (le_refl 0)
      (by rw [Int.toNat_of_nonneg (rawHeight_eq rawData W hW).2.2]; omega)
  · right
    exact decodeRawRGB24_of_NewRGBA_panic rawData W (by omega) _ hpanic

/-! ## readAndDecodeRawRGB24 -/

theorem readAndDecode_of_ReadToEnd {σ : Type} (sb : PageReader σ) (fuel : Nat) (w : World σ)
    (r : ReadToEndResult σ) (m : RGBAImage) (hread : sb.ReadToEnd fuel w = Outcome.ret r)
    (hok : r.err = none) (hdec : decodeRawRGB24 r.data sb.Width = Outcome.ret m) :
    sb.readAndDecodeRawRGB24 fuel w =
      Outcome.ret { img := some m, err := none, world := r.world } := by
  simp [PageReader.readAndDecodeRawRGB24, hread, hok, hdec]

theorem scriptReader_ReadToEnd_chunk (W : Int) (F : Nat) (d : List Byte) (a b fuel : Nat)
    (hd : d.length ≤ chunkSize) :
    (scriptReader W F).ReadToEnd (fuel + 2) ⟨[(d, none)], a, b⟩ =
      Outcome.ret { data := d, err := none, world := ⟨[], a + 2, b + 1⟩ } := by
  unfold PageReader.ReadToEnd
  rw [ReadToEndLoop_run (scriptReader W F) 1 (fuel + 2) _ [] _ (by omega)
    (by
      intro i hi
      interval_cases i <;>
        simp [PageReader.nthRead, scriptRead_cons, scriptRead_nil, hd])
    (by
      intro i hi
      interval_cases i
      simp [PageReader.nthRead, scriptRead_cons])
    (by simp [PageReader.nthRead, scriptRead_cons, scriptRead_nil])]
  have ht : List.take d.length (overwrite (List.replicate chunkSize 0) d) = d :=
    take_overwrite _ d (by simpa using hd)
  simp [List.range_succ_eq_map, PageReader.nthRead, scriptRead_cons, scriptRead_nil,
    ReadResult.delivered, ht]

theorem ReadToEndLoop_panic {σ : Type} (sb : PageReader σ) (fuel : Nat) :
    ∀ (w : World σ) (result buf : List Byte) (e : Panic),
      sb.ReadToEndLoop fuel w result buf = Outcome.panic e → e = Panic.sliceBoundsOutOfRange := by
  induction fuel with
  | zero => intro w result buf e h; simp [PageReader.ReadToEndLoop] at h
  | succ fuel ih =>
    intro w result buf e h
    simp only [PageReader.ReadToEndLoop] at h
    split at h
    · injection h with h; exact h.symm
    · split at h
      · exact absurd h (by simp)
      · split at h
        · exact absurd h (by simp)
        · exact ih _ _ _ e h


theorem ReadToEnd_of_endOfPage {σ : Type} (sb : PageReader σ) (fuel : Nat) (w : World σ)
    (hend : sb.Session.EndOfPage w.session = true) :
    sb.ReadToEnd (fuel + 1) w =
      Outcome.ret { data := [], err := none, world := { w with reads := w.reads + 1 } } := by
  unfold PageReader.ReadToEnd
  have hr := Read_of_endOfPage sb w (List.replicate chunkSize 0) hend
  rw [ReadToEndLoop_eof sb fuel w [] _ (by rw [hr]; exact Int.ofNat_nonneg _) (by rw [hr])]
  rw [hr]
  rfl

theorem readAndDecode_of_panic {σ : Type} (sb : PageReader σ) (fuel : Nat) (w : World σ)
    (r : ReadToEndResult σ) (e : Panic) (hread : sb.ReadToEnd fuel w = Outcome.ret r)
    (hok : r.err = none) (hdec : decodeRawRGB24 r.data sb.Width = Outcome.panic e) :
    sb.readAndDecodeRawRGB24 fuel w = Outcome.panic e := by
  simp [PageReader.readAndDecodeRawRGB24, hread, hok, hdec]

/-- Claim C1, as stated, fails: with the declared width `2^62` and a page
without bytes, `ReadToEnd` returns the empty sequence and no error, and
`readAndDecodeRawRGB24` returns no image: it ends in the panic of
`image.NewRGBA`, for which `4 * 2^62` does not fit 64 bits. -/
theorem C1_counterexample :
    (0 : Int) < 4611686018427387904 ∧
      (scriptReader 4611686018427387904 0).ReadToEnd 1 ⟨[], 0, 0⟩ =
        Outcome.ret { data := [], err := none, world := ⟨[], 1, 0⟩ } ∧
      (scriptReader 4611686018427387904 0).readAndDecodeRawRGB24 1 ⟨[], 0, 0⟩ =
        Outcome.panic Panic.hugeRectangle :=
  ⟨by decide, ReadToEnd_of_endOfPage (scriptReader 4611686018427387904 0) 0 ⟨[], 0, 0⟩ rfl,
    readAndDecode_of_panic (scriptReader 4611686018427387904 0) 1 ⟨[], 0, 0⟩
      { data := [], err := none, world := ⟨[], 1, 0⟩ } Panic.hugeRectangle
      (ReadToEnd_of_endOfPage (scriptReader 4611686018427387904 0) 0 ⟨[], 0, 0⟩ rfl) rfl rfl⟩

/-- Claim C1, amended: when `ReadToEnd` returns the bytes `r.data` (of length
`L`) without error, the declared width `W` has `0 < W < 2^62` and `L` is below
`3 * 2^61` (so that `image.NewRGBA` accepts the rectangle),
`readAndDecodeRawRGB24` returns, with a nil error, an image whose bounds are
`(0,0)-(W, L / (3*W))` with truncating division, the value the code gets as
`L / 3 / W`; the image has width `W`, that height, `W * height` pixels (four
bytes of `Pix` each), and every pixel within the bounds has alpha 255. -/
theorem readAndDecodeRawRGB24_size {σ : Type} (sb : PageReader σ) (fuel : Nat) (w : World σ)
    (r : ReadToEndResult σ) (hread : sb.ReadToEnd fuel w = Outcome.ret r)
    (hok : r.err = none) (hW : 0 < sb.Width) (h62 : sb.Width < 4611686018427387904)
    (hL : (r.data.length : Int) < 6917529027641081856) :
    ∃ m, sb.readAndDecodeRawRGB24 fuel w =
          Outcome.ret { img := some m, err := none, world := r.world } ∧
      rawHeight r.data sb.Width = (r.data.length : Int).tdiv (3 * sb.Width) ∧
      m.Rect = { Min := { X := 0, Y := 0 },
                 Max := { X := sb.Width, Y := (r.data.length : Int).tdiv (3 * sb.Width) } } ∧
      m.Rect.Dx = sb.Width ∧
      m.Rect.Dy = (r.data.length : Int).tdiv (3 * sb.Width) ∧
      m.Rect.Dx * m.Rect.Dy = sb.Width * (r.data.length : Int).tdiv (3 * sb.Width) ∧
      (m.Pix.length : Int) = 4 * (sb.Width * (r.data.length : Int).tdiv (3 * sb.Width)) ∧
      ∀ x y, 0 ≤ x → x < sb.Width → 0 ≤ y → y < (r.data.length : Int).tdiv (3 * sb.Width) →
        (m.RGBAAt x y).A = 255 := by
  obtain ⟨m, hdec, hc1, hc3, _, hat⟩ := decodeRawRGB24_spec_of_length r.data sb.Width hW h62 hL
  have hh := (rawHeight_eq r.data sb.Width hW).2.1
  rw [hh] at hc1 hc3 hat
  refine ⟨m, readAndDecode_of_ReadToEnd sb fuel w r m hread hok hdec, hh, hc1, ?_, ?_, ?_, ?_, ?_⟩
  · rw [hc1]; simp [Rectangle.Dx]
  · rw [hc1]; simp [Rectangle.Dy]
  · rw [hc1]; simp [Rectangle.Dx, Rectangle.Dy]
  · rw [hc3]; ring
  · intro x y hx0 hx hy0 hy
    rw [hat x y hx0 hx hy0 hy]
    rfl

/-- A page of 13 bytes at width 2: a 2 by 2 image of 16 bytes, one byte dropped. -/
theorem C1_witness :
    ∃ m, (scriptReader 2 0).readAndDecodeRawRGB24 2
          ⟨[([1, 2, 3, 4, 5, 6, 7, 8, 9, 10, 11, 12, 13], none)], 0, 0⟩ =
          Outcome.ret { img := some m, err := none, world := ⟨[], 2, 1⟩ } ∧
      m.Rect = { Min := { X := 0, Y := 0 }, Max := { X := 2, Y := 2 } } ∧
      m.Pix.length = 16 ∧
      ∀ x y, 0 ≤ x → x < 2 → 0 ≤ y → y < 2 → (m.RGBAAt x y).A = 255 := by
  obtain ⟨m, h1, _, h3, _, _, _, h7, h8⟩ := readAndDecodeRawRGB24_size (scriptReader 2 0) 2
    ⟨[([1, 2, 3, 4, 5, 6, 7, 8, 9, 10, 11, 12, 13], none)], 0, 0⟩
    { data := [1, 2, 3, 4, 5, 6, 7, 8, 9, 10, 11, 12, 13], err := none, world := ⟨[], 2, 1⟩ }
    (scriptReader_ReadToEnd_chunk 2 0 _ 0 0 0 (by rw [chunkSize_eq]; decide)) rfl (by decide)
    (by decide) (by decide)
  have hlen : (m.Pix.length : Int) = 16 := by rw [h7]; rfl
  exact ⟨m, h1, h3, by exact_mod_cast hlen, h8⟩

/-- Claim C2: when `ReadToEnd` returns the bytes `r.data` without error, the
declared width `W` is positive and `(x, y)` lies within `0 ≤ x < W`,
`0 ≤ y < height` (the page being shorter than `3 * 2^61` bytes, as every Go
slice is), `readAndDecodeRawRGB24` returns an image with the bounds
`(0,0)-(W, height)` in which the pixel at `(x, y)`, and at every other point
of the bounds, has R, G and B equal to the bytes at offsets `(y*W + x)*3`,
`+1` and `+2` of `r.data` (all three offsets are within the slice) and
A = 255: row-major from the top-left corner. -/
theorem readAndDecodeRawRGB24_pixels {σ : Type} (sb : PageReader σ) (fuel : Nat)
    (w : World σ) (r : ReadToEndResult σ) (x y : Int)
    (hread : sb.ReadToEnd fuel w = Outcome.ret r)
    (hok : r.err = none) (hW : 0 < sb.Width)
    (hL : (r.data.length : Int) < 6917529027641081856)
    (hx0 : 0 ≤ x) (hx : x < sb.Width) (hy0 : 0 ≤ y) (hy : y < rawHeight r.data sb.Width) :
    ∃ m, sb.readAndDecodeRawRGB24 fuel w =
          Outcome.ret { img := some m, err := none, world := r.world } ∧
      m.Rect = { Min := { X := 0, Y := 0 },
                 Max := { X := sb.Width, Y := rawHeight r.data sb.Width } } ∧
      (index r.data ((y * sb.Width + x) * 3) = Outcome.ret (m.RGBAAt x y).R ∧
        index r.data ((y * sb.Width + x) * 3 + 1) = Outcome.ret (m.RGBAAt x y).G ∧
        index r.data ((y * sb.Width + x) * 3 + 2) = Outcome.ret (m.RGBAAt x y).B ∧
        (m.RGBAAt x y).A = 255) ∧
      ∀ x1 y1, 0 ≤ x1 → x1 < sb.Width → 0 ≤ y1 → y1 < rawHeight r.data sb.Width →
        index r.data ((y1 * sb.Width + x1) * 3) = Outcome.ret (m.RGBAAt x1 y1).R ∧
        index r.data ((y1 * sb.Width + x1) * 3 + 1) = Outcome.ret (m.RGBAAt x1 y1).G ∧
        index r.data ((y1 * sb.Width + x1) * 3 + 2) = Outcome.ret (m.RGBAAt x1 y1).B ∧
        (m.RGBAAt x1 y1).A = 255 := by
  have hbuf := fits_of_length r.data sb.Width hW hL
  have h62 : sb.Width < 4611686018427387904 := by
    have hpos : 1 ≤ rawHeight r.data sb.Width := by omega
    have h4 : 4 * sb.Width ≤ 4 * sb.Width * rawHeight r.data sb.Width := by nlinarith
    omega
  obtain ⟨m, hdec, hc1, _, _, hat⟩ := decodeRawRGB24_spec r.data sb.Width hW h62 hbuf
  have hall : ∀ x1 y1, 0 ≤ x1 → x1 < sb.Width → 0 ≤ y1 → y1 < rawHeight r.data sb.Width →
      index r.data ((y1 * sb.Width + x1) * 3) = Outcome.ret (m.RGBAAt x1 y1).R ∧
      index r.data ((y1 * sb.Width + x1) * 3 + 1) = Outcome.ret (m.RGBAAt x1 y1).G ∧
      index r.data ((y1 * sb.Width + x1) * 3 + 2) = Outcome.ret (m.RGBAAt x1 y1).B ∧
      (m.RGBAAt x1 y1).A = 255 := by
    intro x1 y1 hx10 hx1 hy10 hy1
    obtain ⟨hi0, hi2⟩ := rawIndex_in_range r.data sb.Width x1 y1 hW hx10 hx1 hy10 hy1
    rw [hat x1 y1 hx10 hx1 hy10 hy1,
      index_of_in_range r.data _ hi0 (by omega),
      index_of_in_range r.data _ (by omega) (by omega),
      index_of_in_range r.data _ (by omega) (by omega)]
    exact ⟨rfl, rfl, rfl, rfl⟩
  exact ⟨m, readAndDecode_of_ReadToEnd sb fuel w r m hread hok hdec, hc1,
    hall x y hx0 hx hy0 hy, hall⟩

theorem samplePage_length : samplePage.length = 300 := by
  simp [samplePage]

theorem samplePage_height : rawHeight samplePage 10 = 10 := by
  simp [rawHeight, samplePage_length]
  rfl

/-- The page of 300 bytes at width 10: a 10 by 10 image of the input triples. -/
theorem C2_witness :
    ∃ m, (scriptReader 10 0).readAndDecodeRawRGB24 2 ⟨[(samplePage, none)], 0, 0⟩ =
          Outcome.ret { img := some m, err := none, world := ⟨[], 2, 1⟩ } ∧
      m.Rect = { Min := { X := 0, Y := 0 }, Max := { X := 10, Y := 10 } } ∧
      ∀ x y, 0 ≤ x → x < 10 → 0 ≤ y → y < 10 →
        index samplePage ((y * 10 + x) * 3) = Outcome.ret (m.RGBAAt x y).R ∧
        index samplePage ((y * 10 + x) * 3 + 1) = Outcome.ret (m.RGBAAt x y).G ∧
        index samplePage ((y * 10 + x) * 3 + 2) = Outcome.ret (m.RGBAAt x y).B ∧
        (m.RGBAAt x y).A = 255 := by
  have h := readAndDecodeRawRGB24_pixels (scriptReader 10 0) 2 ⟨[(samplePage, none)], 0, 0⟩
    { data := samplePage, err := none, world := ⟨[], 2, 1⟩ } 3 7
    (scriptReader_ReadToEnd_chunk 10 0 samplePage 0 0 0
      (by rw [chunkSize_eq, samplePage_length]; decide)) rfl (by decide)
    (by
      show ((samplePage.length : Nat) : Int) < 6917529027641081856
      rw [samplePage_length]; decide)
    (by decide) (by decide) (by decide)
    (by
      show (7 : Int) < rawHeight samplePage 10
      rw [samplePage_height]; decide)
  simp only [samplePage_height, scriptReader] at h
  obtain ⟨m, h1, h2, _, h4⟩ := h
  exact ⟨m, h1, h2, h4⟩

theorem readAndDecode_returns {σ : Type} (sb : PageReader σ) (fuel : Nat) (w : World σ)
    (r : ReadToEndResult σ) (hW : 0 < sb.Width) (h62 : sb.Width < 4611686018427387904)
    (hL : (r.data.length : Int) < 6917529027641081856)
    (hread : sb.ReadToEnd fuel w = Outcome.ret r) :
    ∃ res, sb.readAndDecodeRawRGB24 fuel w = Outcome.ret res := by
  obtain ⟨m, hdec, _⟩ := decodeRawRGB24_spec_of_length r.data sb.Width hW h62 hL
  by_cases hok : r.err = none
  · exact ⟨_, readAndDecode_of_ReadToEnd sb fuel w r m hread hok hdec⟩
  · exact ⟨{ img := none, err := r.err, world := r.world }, by
      simp [PageReader.readAndDecodeRawRGB24, hread, hok]⟩

/-- Claim C3, as stated, fails: with the declared width `2^62` the decode of
the empty byte sequence crashes, in `image.NewRGBA`. -/
theorem C3_counterexample :
    (0 : Int) < 4611686018427387904 ∧
      decodeRawRGB24 [] 4611686018427387904 = Outcome.panic Panic.hugeRectangle ∧
      ∀ m, decodeRawRGB24 [] 4611686018427387904 ≠ Outcome.ret m := by
  have h : decodeRawRGB24 [] 4611686018427387904 = Outcome.panic Panic.hugeRectangle := rfl
  refine ⟨by decide, h, fun m => ?_⟩
  rw [h]
  simp

/-- Claim C3, amended: for a positive declared width `W` and a byte sequence
of any length `L`, every offset `idx = (y*W + x)*3` the two loops reach
(`0 ≤ x < W`, `0 ≤ y < L / 3 / W`) has `0 ≤ idx` and `idx + 2 < L`, so no
access is out of range: the decode of the bytes, in which an index outside
the slice is a panic, either returns an image or ends in the panic of
`image.NewRGBA` on a rectangle too large, and `readAndDecodeRawRGB24` never
ends in an index-out-of-range or divide-by-zero panic.  With `W < 2^62` and
`L < 3 * 2^61` there is no panic at all: the decode returns, and
`readAndDecodeRawRGB24` returns whenever `ReadToEnd` does. -/
theorem rawDecode_indices_in_range {σ : Type} (sb : PageReader σ) (hW : 0 < sb.Width) :
    (∀ (rawData : List Byte) (x y : Int), 0 ≤ x → x < sb.Width → 0 ≤ y →
        y < rawHeight rawData sb.Width →
        0 ≤ (y * sb.Width + x) * 3 ∧ (y * sb.Width + x) * 3 + 2 < rawData.length) ∧
      (∀ rawData : List Byte,
        (∃ m, decodeRawRGB24 rawData sb.Width = Outcome.ret m) ∨
          decodeRawRGB24 rawData sb.Width = Outcome.panic Panic.hugeRectangle) ∧
      (∀ (fuel : Nat) (w : World σ),
        sb.readAndDecodeRawRGB24 fuel w ≠ Outcome.panic Panic.indexOutOfRange ∧
        sb.readAndDecodeRawRGB24 fuel w ≠ Outcome.panic Panic.divideByZero) ∧
      (sb.Width < 4611686018427387904 →
        (∀ rawData : List Byte, (rawData.length : Int) < 6917529027641081856 →
          ∃ m, decodeRawRGB24 rawData sb.Width = Outcome.ret m) ∧
        ∀ (fuel : Nat) (w : World σ) (r : ReadToEndResult σ),
          sb.ReadToEnd fuel w = Outcome.ret r →
          (r.data.length : Int) < 6917529027641081856 →
          ∃ res, sb.readAndDecodeRawRGB24 fuel w = Outcome.ret res) := by
  refine ⟨fun rawData x y hx0 hx hy0 hy => rawIndex_in_range rawData sb.Width x y hW hx0 hx hy0 hy,
    fun rawData => decodeRawRGB24_outcome rawData sb.Width hW, fun fuel w => ?_,
    fun h62 => ⟨fun rawData hL => ?_,
      fun fuel w r hread hL => readAndDecode_returns sb fuel w r hW h62 hL hread⟩⟩
  · cases hread : sb.ReadToEnd fuel w with
    | ret r =>
      by_cases hok : r.err = none
      · rcases decodeRawRGB24_outcome r.data sb.Width hW with ⟨m, hdec⟩ | hpanic
        · rw [readAndDecode_of_ReadToEnd sb fuel w r m hread hok hdec]
          exact ⟨by simp, by simp⟩
        · rw [readAndDecode_of_panic sb fuel w r _ hread hok hpanic]
          exact ⟨by simp, by simp⟩
      · simp [PageReader.readAndDecodeRawRGB24, hread, hok]
    | panic e =>
      have he : e = Panic.sliceBoundsOutOfRange :=
        ReadToEndLoop_panic sb fuel w [] _ e hread
      subst he
      simp [PageReader.readAndDecodeRawRGB24, hread]
    | outOfFuel => simp [PageReader.readAndDecodeRawRGB24, hread]
  · obtain ⟨m, hdec, _⟩ := decodeRawRGB24_spec_of_length rawData sb.Width hW h62 hL
    exact ⟨m, hdec⟩

/-- The index bounds and the absence of panics at width 7. -/
theorem C3_witness :
    (∀ (rawData : List Byte) (x y : Int), 0 ≤ x → x < 7 → 0 ≤ y → y < rawHeight rawData 7 →
        0 ≤ (y * 7 + x) * 3 ∧ (y * 7 + x) * 3 + 2 < rawData.length) ∧
      (∀ rawData : List Byte, (rawData.length : Int) < 6917529027641081856 →
        ∃ m, decodeRawRGB24 rawData 7 = Outcome.ret m) ∧
      ∀ (fuel : Nat) (w : World (List (List Byte × Option GoError))),
        (scriptReader 7 0).readAndDecodeRawRGB24 fuel w ≠ Outcome.panic Panic.indexOutOfRange ∧
        (scriptReader 7 0).readAndDecodeRawRGB24 fuel w ≠ Outcome.panic Panic.divideByZero :=
  ⟨(rawDecode_indices_in_range (scriptReader 7 0) (by decide)).1,
    ((rawDecode_indices_in_range (scriptReader 7 0) (by decide)).2.2.2 (by decide)).1,
    (rawDecode_indices_in_range (scriptReader 7 0) (by decide)).2.2.1⟩

/-! ## GetImage -/

/-- Claim C9: `GetImage` is the raw decode when `Format` equals
`LisImgFormatRawRGB24`, and for every other `Format` it is exactly what
`image.Decode` returns on this page reader (image, error and world as they
are); which of the two runs is decided by `Format` alone, so two page readers
on the same session with the same `Format` other than raw give the same
result whatever their `Width`, `Height` and `ImageSize`. -/
theorem GetImage_dispatch {σ ι : Type} (E : Externals σ ι) (sb : PageReader σ) (fuel : Nat)
    (w : World σ) :
    sb.GetImage E fuel w =
        (if sb.Format = E.LisImgFormatRawRGB24 then
          (sb.readAndDecodeRawRGB24 fuel w).map RawResult.asImageResult
        else E.Decode sb.Read w) ∧
      (sb.Format = E.LisImgFormatRawRGB24 →
        sb.GetImage E fuel w = (sb.readAndDecodeRawRGB24 fuel w).map RawResult.asImageResult) ∧
      (sb.Format ≠ E.LisImgFormatRawRGB24 → sb.GetImage E fuel w = E.Decode sb.Read w) ∧
      ∀ (Width Height : Int) (ImageSize : Nat),
        sb.Format ≠ E.LisImgFormatRawRGB24 →
        PageReader.GetImage E
            { Width := Width, Height := Height, Format := sb.Format, ImageSize := ImageSize,
              Session := sb.Session } fuel w =
          sb.GetImage E fuel w := by
  refine ⟨rfl, fun h => ?_, fun h => ?_, fun W H S h => ?_⟩
  · simp [PageReader.GetImage, h]
  · simp [PageReader.GetImage, h]
  · simp only [PageReader.GetImage, if_neg h]
    rfl


theorem decodeRawRGB24_short (rawData : List Byte) (W : Int) (hW : 0 < W)
    (h62 : W < 4611686018427387904) (hL : (rawData.length : Int) < 3 * W) :
    decodeRawRGB24 rawData W =
      Outcome.ret { Pix := [], Stride := wrapInt (4 * W),
                    Rect := { Min := { X := 0, Y := 0 }, Max := { X := W, Y := 0 } } } := by
  have hh : rawHeight rawData W = 0 := by
    rw [(rawHeight_eq rawData W hW).1]
    exact Int.ediv_eq_zero_of_lt (Int.ofNat_nonneg _) hL
  have hnew := NewRGBA_of_fits W (rawHeight rawData W) (le_of_lt hW) (by omega) h62
    (by rw [hh]; omega)
  rw [decodeRawRGB24_of_NewRGBA rawData W (by omega) _ hnew, hh]
  simp [decodeRows]

theorem decodeRawRGB24_nil (W : Int) (hW : 0 < W) (h62 : W < 4611686018427387904) :
    decodeRawRGB24 [] W =
      Outcome.ret { Pix := [], Stride := wrapInt (4 * W),
                    Rect := { Min := { X := 0, Y := 0 }, Max := { X := W, Y := 0 } } } :=
  decodeRawRGB24_short [] W hW h62 (by simp only [List.length_nil, Nat.cast_zero]; omega)

theorem sampleExternals_failsOnEmptyStream : sampleExternals.FailsOnEmptyStream := by
  intro read w h
  have h0 := (h w [0, 0, 0, 0] rfl).1
  refine ⟨{ img := none, err := some (GoError.other 1), world := (read w [0, 0, 0, 0]).world },
    ?_, rfl, by simp⟩
  simp [sampleExternals, h0]

/-- Claim C10, as stated, fails: on the raw path with the declared width
`2^62`, a first call of `GetImage` reads the page of three bytes to its end
(`ReadToEnd` leaves the session at end-of-page) and a second call, made in
the world so left, gives neither an error nor an empty image: it ends, as
the first did, in the panic of `image.NewRGBA`. -/
theorem C10_counterexample :
    (0 : Int) < 4611686018427387904 ∧
      (scriptReader 4611686018427387904 0).ReadToEnd 2 ⟨[([1, 2, 3], none)], 0, 0⟩ =
        Outcome.ret { data := [1, 2, 3], err := none, world := ⟨[], 2, 1⟩ } ∧
      scriptSession.EndOfPage ([] : List (List Byte × Option GoError)) = true ∧
      (scriptReader 4611686018427387904 0).GetImage sampleExternals 2
          ⟨[([1, 2, 3], none)], 0, 0⟩ = Outcome.panic Panic.hugeRectangle ∧
      (scriptReader 4611686018427387904 0).GetImage sampleExternals 1 ⟨[], 2, 1⟩ =
        Outcome.panic Panic.hugeRectangle := by
  have hread1 := scriptReader_ReadToEnd_chunk 4611686018427387904 0 [1, 2, 3] 0 0 0
    (by rw [chunkSize_eq]; decide)
  have hread2 := ReadToEnd_of_endOfPage (scriptReader 4611686018427387904 0) 0 ⟨[], 2, 1⟩ rfl
  have hf : (scriptReader 4611686018427387904 0).Format =
      sampleExternals.LisImgFormatRawRGB24 := rfl
  refine ⟨by decide, hread1, rfl, ?_, ?_⟩
  · unfold PageReader.GetImage
    rw [if_pos hf, readAndDecode_of_panic _ 2 _ _ Panic.hugeRectangle hread1 rfl rfl]
    rfl
  · unfold PageReader.GetImage
    rw [if_pos hf, readAndDecode_of_panic _ 1 _ _ Panic.hugeRectangle hread2 rfl rfl]
    rfl

/-- Claim C10, amended: after a call of `GetImage` that returned and left the
session at end-of-page, a second call (given fuel for one loop iteration)
returns either a nil image with an error or an RGBA image without any pixel
and a nil error, so never pixel data returned before, the declared width on
the raw path being within `0 < W < 2^62`.  On the raw path it returns the
`W x 0` image with a nil error after a single read that found the end of the
page; on the other path the codec, which meets a stream without bytes,
returns its error. -/
theorem GetImage_second_call {σ ι : Type} (E : Externals σ ι) (sb : PageReader σ)
    (fuel fuel2 : Nat) (w : World σ) (r1 : ImageResult σ ι)
    (_hfirst : sb.GetImage E fuel w = Outcome.ret r1)
    (hend : sb.Session.EndOfPage r1.world.session = true)
    (hW : sb.Format = E.LisImgFormatRawRGB24 →
      0 < sb.Width ∧ sb.Width < 4611686018427387904)
    (hcodec : E.FailsOnEmptyStream) (hfuel : 0 < fuel2) :
    ∃ r2, sb.GetImage E fuel2 r1.world = Outcome.ret r2 ∧
      ((r2.img = none ∧ r2.err ≠ none) ∨
        (∃ m, r2.img = some (Image.rgba m) ∧ m.Pix = [] ∧ r2.err = none)) ∧
      (sb.Format = E.LisImgFormatRawRGB24 →
        r2.img = some (Image.rgba
          { Pix := [], Stride := wrapInt (4 * sb.Width),
            Rect := { Min := { X := 0, Y := 0 }, Max := { X := sb.Width, Y := 0 } } }) ∧
        r2.err = none ∧
        r2.world = { r1.world with reads := r1.world.reads + 1 }) ∧
      (sb.Format ≠ E.LisImgFormatRawRGB24 → r2.img = none ∧ r2.err ≠ none) := by
  obtain ⟨f, rfl⟩ : ∃ f, fuel2 = f + 1 := ⟨fuel2 - 1, by omega⟩
  by_cases hraw : sb.Format = E.LisImgFormatRawRGB24
  · have hread := ReadToEnd_of_endOfPage sb f r1.world hend
    have hdec := decodeRawRGB24_nil sb.Width (hW hraw).1 (hW hraw).2
    have hrun := readAndDecode_of_ReadToEnd sb (f + 1) r1.world _ _ hread rfl hdec
    refine ⟨_, by simp only [PageReader.GetImage, if_pos hraw, hrun, Outcome.map]; rfl, ?_, ?_, ?_⟩
    · exact Or.inr ⟨_, rfl, rfl, rfl⟩
    · intro _
      exact ⟨rfl, rfl, rfl⟩
    · intro hne
      exact absurd hraw hne
  · obtain ⟨r2, hdec, himg, herr⟩ := hcodec sb.Read r1.world (by
      intro w1 p hw1
      have h1 : sb.Session.EndOfPage w1.session = true := by rw [hw1]; exact hend
      rw [Read_of_endOfPage sb w1 p h1]
      exact ⟨rfl, rfl, rfl⟩)
    refine ⟨r2, by simp only [PageReader.GetImage, if_neg hraw, hdec], Or.inl ⟨himg, herr⟩, ?_, ?_⟩
    · intro h
      exact absurd h hraw
    · intro _
      exact ⟨himg, herr⟩

/-- A raw page of 12 bytes read by a first call, then the second call. -/
theorem C10_witness :
    ∃ r1, (scriptReader 2 0).GetImage sampleExternals 2
          ⟨[([1, 2, 3, 4, 5, 6, 7, 8, 9, 10, 11, 12], none)], 0, 0⟩ = Outcome.ret r1 ∧
      r1.world = ⟨[], 2, 1⟩ ∧
      ∃ r2, (scriptReader 2 0).GetImage sampleExternals 1 r1.world = Outcome.ret r2 ∧
        r2.img = some (Image.rgba
          { Pix := [], Stride := 8,
            Rect := { Min := { X := 0, Y := 0 }, Max := { X := 2, Y := 0 } } }) ∧
        r2.err = none ∧ r2.world = ⟨[], 3, 1⟩ := by
  obtain ⟨m, hdec, _⟩ := decodeRawRGB24_spec_of_length [1, 2, 3, 4, 5, 6, 7, 8, 9, 10, 11, 12] 2
    (by decide) (by decide) (by decide)
  have hread := scriptReader_ReadToEnd_chunk 2 0 [1, 2, 3, 4, 5, 6, 7, 8, 9, 10, 11, 12] 0 0 0
    (by rw [chunkSize_eq]; decide)
  have hrun := readAndDecode_of_ReadToEnd (scriptReader 2 0) 2 _ _ m hread rfl hdec
  have hfirst : (scriptReader 2 0).GetImage sampleExternals 2
      ⟨[([1, 2, 3, 4, 5, 6, 7, 8, 9, 10, 11, 12], none)], 0, 0⟩ =
      Outcome.ret { img := some (Image.rgba m), err := none, world := ⟨[], 2, 1⟩ } := by
    have hf : (scriptReader 2 0).Format = sampleExternals.LisImgFormatRawRGB24 := rfl
    unfold PageReader.GetImage
    rw [if_pos hf, hrun]
    rfl
  obtain ⟨r2, h2, _, h4, _⟩ := GetImage_second_call sampleExternals (scriptReader 2 0) 2 1 _ _
    hfirst rfl (fun _ => ⟨by decide, by decide⟩) sampleExternals_failsOnEmptyStream (by decide)
  obtain ⟨h5, h6, h7⟩ := h4 rfl
  exact ⟨_, hfirst, rfl, r2, h2, h5, h6, h7⟩

/-! ## The raw decode: short pages, remainders, undeclared inputs -/

theorem index_take (l : List Byte) (n : Nat) (i : Int) (hi0 : 0 ≤ i) (hin : i < n)
    (hn : n ≤ l.length) : index (l.take n) i = index l i := by
  have h1 : i < ((l.take n).length : Int) := by
    rw [List.length_take, Nat.min_eq_left hn]; exact hin
  have h2 : i < (l.length : Int) := by omega
  rw [index_of_in_range _ i hi0 h1, index_of_in_range _ i hi0 h2]
  have h3 : i.toNat < n := by omega
  simp [List.getD_eq_getElem?_getD, List.getElem?_take_of_lt h3]

theorem decodeRow_congr (d1 d2 : List Byte) (W y : Int)
    (hidx : ∀ x, 0 ≤ x → x < W →
      index d1 ((y * W + x) * 3) = index d2 ((y * W + x) * 3) ∧
      index d1 ((y * W + x) * 3 + 1) = index d2 ((y * W + x) * 3 + 1) ∧
      index d1 ((y * W + x) * 3 + 2) = index d2 ((y * W + x) * 3 + 2)) :
    ∀ (todo : Nat) (x : Int) (img : RGBAImage), 0 ≤ x → x + todo = W →
      decodeRow d1 W y todo x img = decodeRow d2 W y todo x img := by
  intro todo
  induction todo with
  | zero => intro x img _ _; rfl
  | succ todo ih =>
    intro x img hx0 hxW
    have hxlt : x < W := by push_cast at hxW; omega
    obtain ⟨h0, h1, h2⟩ := hidx x hx0 hxlt
    simp only [decodeRow, h0, h1, h2]
    cases index d2 ((y * W + x) * 3) with
    | ret r =>
      cases index d2 ((y * W + x) * 3 + 1) with
      | ret g =>
        cases index d2 ((y * W + x) * 3 + 2) with
        | ret b => exact ih (x + 1) _ (by omega) (by push_cast at hxW; omega)
        | panic e => rfl
        | outOfFuel => rfl
      | panic e => rfl
      | outOfFuel => rfl
    | panic e => rfl
    | outOfFuel => rfl

theorem decodeRows_congr (d1 d2 : List Byte) (W h : Int) (hW : 0 < W)
    (hidx : ∀ x y, 0 ≤ x → x < W → 0 ≤ y → y < h →
      index d1 ((y * W + x) * 3) = index d2 ((y * W + x) * 3) ∧
      index d1 ((y * W + x) * 3 + 1) = index d2 ((y * W + x) * 3 + 1) ∧
      index d1 ((y * W + x) * 3 + 2) = index d2 ((y * W + x) * 3 + 2)) :
    ∀ (todo : Nat) (y : Int) (img : RGBAImage), 0 ≤ y → y + todo = h →
      decodeRows d1 W todo y img = decodeRows d2 W todo y img := by
  intro todo
  induction todo with
  | zero => intro y img _ _; rfl
  | succ todo ih =>
    intro y img hy0 hyh
    have hylt : y < h := by push_cast at hyh; omega
    have hrow := decodeRow_congr d1 d2 W y (fun x hx0 hx => hidx x y hx0 hx hy0 hylt)
      W.toNat 0 img (le_refl 0) (by rw [Int.toNat_of_nonneg (le_of_lt hW)]; omega)
    simp only [decodeRows, hrow]
    cases decodeRow d2 W y W.toNat 0 img with
    | ret img1 => exact ih (y + 1) img1 (by omega) (by push_cast at hyh; omega)
    | panic e => rfl
    | outOfFuel => rfl

theorem rawHeight_take (rawData : List Byte) (W : Int) (hW : 0 < W) :
    rawHeight (rawData.take (3 * W * rawHeight rawData W).toNat) W = rawHeight rawData W := by
  have hh0 := (rawHeight_eq rawData W hW).2.2
  have hle := rawHeight_mul_le rawData W hW
  have hnn : 0 ≤ 3 * W * rawHeight rawData W := by positivity
  have hlen : (((rawData.take (3 * W * rawHeight rawData W).toNat).length : Nat) : Int) =
      3 * W * rawHeight rawData W := by
    rw [List.length_take, Nat.min_eq_left (by omega)]
    exact Int.toNat_of_nonneg hnn
  rw [(rawHeight_eq _ W hW).1, hlen]
  exact Int.mul_ediv_cancel_left _ (by omega)


theorem GetImage_of_raw {σ ι : Type} (E : Externals σ ι) (sb : PageReader σ) (fuel : Nat)
    (w : World σ) (r : ReadToEndResult σ) (m : RGBAImage)
    (hraw : sb.Format = E.LisImgFormatRawRGB24)
    (hread : sb.ReadToEnd fuel w = Outcome.ret r) (hok : r.err = none)
    (hdec : decodeRawRGB24 r.data sb.Width = Outcome.ret m) :
    sb.GetImage E fuel w =
      Outcome.ret { img := some (Image.rgba m), err := none, world := r.world } := by
  unfold PageReader.GetImage
  rw [if_pos hraw, readAndDecode_of_ReadToEnd sb fuel w r m hread hok hdec]
  rfl

/-- Claim C12, as stated, fails: on the raw path with the declared width
`2^62`, a page without bytes (`L = 0 < 3*W`) and a page of five bytes get no
image from `GetImage`: it ends in the panic of `image.NewRGBA`. -/
theorem C12_counterexample :
    (0 : Int) < 3 * 4611686018427387904 ∧ (5 : Int) < 3 * 4611686018427387904 ∧
      (scriptReader 4611686018427387904 0).GetImage sampleExternals 1 ⟨[], 0, 0⟩ =
        Outcome.panic Panic.hugeRectangle ∧
      (scriptReader 4611686018427387904 0).GetImage sampleExternals 2
          ⟨[([1, 2, 3, 4, 5], none)], 0, 0⟩ = Outcome.panic Panic.hugeRectangle := by
  have hread0 := ReadToEnd_of_endOfPage (scriptReader 4611686018427387904 0) 0 ⟨[], 0, 0⟩ rfl
  have hread5 := scriptReader_ReadToEnd_chunk 4611686018427387904 0 [1, 2, 3, 4, 5] 0 0 0
    (by rw [chunkSize_eq]; decide)
  have hf : (scriptReader 4611686018427387904 0).Format =
      sampleExternals.LisImgFormatRawRGB24 := rfl
  refine ⟨by decide, by decide, ?_, ?_⟩
  · unfold PageReader.GetImage
    rw [if_pos hf, readAndDecode_of_panic _ 1 _ _ Panic.hugeRectangle hread0 rfl rfl]
    rfl
  · unfold PageReader.GetImage
    rw [if_pos hf, readAndDecode_of_panic _ 2 _ _ Panic.hugeRectangle hread5 rfl rfl]
    rfl

/-- Claim C12, amended: on the raw path of `GetImage`, when `ReadToEnd` returns
`L` bytes without error, the declared width `W` has `0 < W < 2^62` and
`L < 3*W`, the derived height is 0 and `GetImage` returns, with a nil error,
the image with bounds `(0,0)-(W,0)`, which has no pixel (`Pix` is empty); its
`Stride` is `4*W` as a 64-bit `int`. -/
theorem GetImage_short_page {σ ι : Type} (E : Externals σ ι) (sb : PageReader σ)
    (fuel : Nat) (w : World σ) (r : ReadToEndResult σ)
    (hraw : sb.Format = E.LisImgFormatRawRGB24)
    (hread : sb.ReadToEnd fuel w = Outcome.ret r) (hok : r.err = none)
    (hW : 0 < sb.Width) (h62 : sb.Width < 4611686018427387904)
    (hL : (r.data.length : Int) < 3 * sb.Width) :
    rawHeight r.data sb.Width = 0 ∧
      sb.GetImage E fuel w =
        Outcome.ret
          { img := some (Image.rgba
              { Pix := [], Stride := wrapInt (4 * sb.Width),
                Rect := { Min := { X := 0, Y := 0 }, Max := { X := sb.Width, Y := 0 } } }),
            err := none, world := r.world } := by
  refine ⟨?_, GetImage_of_raw E sb fuel w r _ hraw hread hok
    (decodeRawRGB24_short r.data sb.Width hW h62 hL)⟩
  rw [(rawHeight_eq r.data sb.Width hW).1]
  exact Int.ediv_eq_zero_of_lt (Int.ofNat_nonneg _) hL

/-- A session without bytes at width 10, and five bytes at width 2: the images
`10 x 0` and `2 x 0`. -/
theorem C12_witness :
    (scriptReader 10 0).GetImage sampleExternals 1 ⟨[], 0, 0⟩ =
        Outcome.ret
          { img := some (Image.rgba
              { Pix := [], Stride := 40,
                Rect := { Min := { X := 0, Y := 0 }, Max := { X := 10, Y := 0 } } }),
            err := none, world := ⟨[], 1, 0⟩ } ∧
      (scriptReader 2 0).GetImage sampleExternals 2 ⟨[([1, 2, 3, 4, 5], none)], 0, 0⟩ =
        Outcome.ret
          { img := some (Image.rgba
              { Pix := [], Stride := 8,
                Rect := { Min := { X := 0, Y := 0 }, Max := { X := 2, Y := 0 } } }),
            err := none, world := ⟨[], 2, 1⟩ } :=
  ⟨(GetImage_short_page sampleExternals (scriptReader 10 0) 1 ⟨[], 0, 0⟩
      { data := [], err := none, world := ⟨[], 1, 0⟩ } rfl
      (ReadToEnd_of_endOfPage (scriptReader 10 0) 0 ⟨[], 0, 0⟩ rfl) rfl
      (by decide) (by decide) (by decide)).2,
   (GetImage_short_page sampleExternals (scriptReader 2 0) 2 ⟨[([1, 2, 3, 4, 5], none)], 0, 0⟩
      { data := [1, 2, 3, 4, 5], err := none, world := ⟨[], 2, 1⟩ } rfl
      (scriptReader_ReadToEnd_chunk 2 0 [1, 2, 3, 4, 5] 0 0 0 (by rw [chunkSize_eq]; decide)) rfl
      (by decide) (by decide) (by decide)).2⟩

theorem ReadToEndLoop_session {σ : Type} (sb1 sb2 : PageReader σ)
    (hs : sb1.Session = sb2.Session) (fuel : Nat) :
    ∀ (w : World σ) (result buf : List Byte),
      sb1.ReadToEndLoop fuel w result buf = sb2.ReadToEndLoop fuel w result buf := by
  have hread : ∀ w p, sb1.Read w p = sb2.Read w p := by
    intro w p
    simp only [PageReader.Read, hs]
  induction fuel with
  | zero => intro w result buf; rfl
  | succ fuel ih =>
    intro w result buf
    simp only [PageReader.ReadToEndLoop, hread, ih]

theorem readAndDecode_map_img {σ : Type} (sb : PageReader σ) (fuel : Nat) (w : World σ)
    (r : ReadToEndResult σ) (hread : sb.ReadToEnd fuel w = Outcome.ret r) :
    (sb.readAndDecodeRawRGB24 fuel w).map (fun res => (res.img, res.err)) =
      if r.err ≠ none then Outcome.ret (none, r.err)
      else (decodeRawRGB24 r.data sb.Width).map (fun m => (some m, none)) := by
  unfold PageReader.readAndDecodeRawRGB24
  rw [hread]
  by_cases he : r.err = none
  · simp only [he, ne_eq, not_true_eq_false, if_false]
    cases decodeRawRGB24 r.data sb.Width <;> rfl
  · simp only [ne_eq, he, not_false_eq_true, if_true]
    rfl

/-- Claim C13: the image of the raw path is a function of the declared width
and of the bytes read alone.  Two page readers with the same `Width` whose
`ReadToEnd` returns the same bytes (and error) end `readAndDecodeRawRGB24` the
same way, with the same image and error, whatever their `Height` and
`ImageSize`; and on one session, replacing `Height` and `ImageSize` by any
values changes nothing in what `readAndDecodeRawRGB24` gives. -/
theorem readAndDecodeRawRGB24_ignores_Height_ImageSize {σ1 σ2 : Type}
    (sb1 : PageReader σ1) (sb2 : PageReader σ2) (f1 f2 : Nat) (w1 : World σ1) (w2 : World σ2)
    (r1 : ReadToEndResult σ1) (r2 : ReadToEndResult σ2)
    (hW : sb1.Width = sb2.Width)
    (h1 : sb1.ReadToEnd f1 w1 = Outcome.ret r1) (h2 : sb2.ReadToEnd f2 w2 = Outcome.ret r2)
    (hd : r1.data = r2.data) (he : r1.err = r2.err) :
    (sb1.readAndDecodeRawRGB24 f1 w1).map (fun res => (res.img, res.err)) =
        (sb2.readAndDecodeRawRGB24 f2 w2).map (fun res => (res.img, res.err)) ∧
      ∀ (Height : Int) (ImageSize : Nat),
        PageReader.readAndDecodeRawRGB24
            { Width := sb1.Width, Height := Height, Format := sb1.Format,
              ImageSize := ImageSize, Session := sb1.Session } f1 w1 =
          sb1.readAndDecodeRawRGB24 f1 w1 := by
  constructor
  · rw [readAndDecode_map_img sb1 f1 w1 r1 h1, readAndDecode_map_img sb2 f2 w2 r2 h2,
      hW, hd, he]
  · intro H S
    unfold PageReader.readAndDecodeRawRGB24 PageReader.ReadToEnd
    rw [ReadToEndLoop_session
      { Width := sb1.Width, Height := H, Format := sb1.Format, ImageSize := S,
        Session := sb1.Session } sb1 rfl]

/-- Two readers of width 2 with different `Height` and `ImageSize`, each
reading the same 12 bytes. -/
theorem C13_witness :
    (PageReader.readAndDecodeRawRGB24
          { Width := 2, Height := 2, Format := 0, ImageSize := 12, Session := scriptSession } 2
          ⟨[([1, 2, 3, 4, 5, 6, 7, 8, 9, 10, 11, 12], none)], 0, 0⟩).map
        (fun res => (res.img, res.err)) =
      (PageReader.readAndDecodeRawRGB24
          { Width := 2, Height := 700, Format := 0, ImageSize := 9, Session := scriptSession } 5
          ⟨[([1, 2, 3, 4, 5, 6, 7, 8, 9, 10, 11, 12], none)], 4, 1⟩).map
        (fun res => (res.img, res.err)) :=
  (readAndDecodeRawRGB24_ignores_Height_ImageSize
    { Width := 2, Height := 2, Format := 0, ImageSize := 12, Session := scriptSession }
    { Width := 2, Height := 700, Format := 0, ImageSize := 9, Session := scriptSession }
    2 5 ⟨[([1, 2, 3, 4, 5, 6, 7, 8, 9, 10, 11, 12], none)], 0, 0⟩
    ⟨[([1, 2, 3, 4, 5, 6, 7, 8, 9, 10, 11, 12], none)], 4, 1⟩
    { data := [1, 2, 3, 4, 5, 6, 7, 8, 9, 10, 11, 12], err := none, world := ⟨[], 2, 1⟩ }
    { data := [1, 2, 3, 4, 5, 6, 7, 8, 9, 10, 11, 12], err := none, world := ⟨[], 6, 2⟩ }
    rfl
    ((ReadToEndLoop_session _ (scriptReader 2 0) rfl 2 _ _ _).trans
      (scriptReader_ReadToEnd_chunk 2 0 _ 0 0 0 (by rw [chunkSize_eq]; decide)))
    ((ReadToEndLoop_session _ (scriptReader 2 0) rfl 5 _ _ _).trans
      (scriptReader_ReadToEnd_chunk 2 0 _ 4 1 3 (by rw [chunkSize_eq]; decide)))
    rfl rfl).1


theorem decodeRawRGB24_take (rawData : List Byte) (W : Int) (hW : 0 < W) :
    decodeRawRGB24 (rawData.take (3 * W * rawHeight rawData W).toNat) W =
      decodeRawRGB24 rawData W := by
  have hh0 := (rawHeight_eq rawData W hW).2.2
  have hle := rawHeight_mul_le rawData W hW
  have hnn : 0 ≤ 3 * W * rawHeight rawData W := by positivity
  have hht := rawHeight_take rawData W hW
  have hlen : (((rawData.take (3 * W * rawHeight rawData W).toNat).length : Nat) : Int) =
      3 * W * rawHeight rawData W := by
    rw [List.length_take, Nat.min_eq_left (by omega)]
    exact Int.toNat_of_nonneg hnn
  have hidx : ∀ x y, 0 ≤ x → x < W → 0 ≤ y → y < rawHeight rawData W →
      index (rawData.take (3 * W * rawHeight rawData W).toNat) ((y * W + x) * 3) =
          index rawData ((y * W + x) * 3) ∧
        index (rawData.take (3 * W * rawHeight rawData W).toNat) ((y * W + x) * 3 + 1) =
          index rawData ((y * W + x) * 3 + 1) ∧
        index (rawData.take (3 * W * rawHeight rawData W).toNat) ((y * W + x) * 3 + 2) =
          index rawData ((y * W + x) * 3 + 2) := by
    intro x y hx0 hx hy0 hy
    obtain ⟨hi0, hi2⟩ := rawIndex_in_range (rawData.take (3 * W * rawHeight rawData W).toNat)
      W x y hW hx0 hx hy0 (by rw [hht]; exact hy)
    rw [hlen] at hi2
    have hn : (3 * W * rawHeight rawData W).toNat ≤ rawData.length := by omega
    exact ⟨index_take rawData _ _ hi0 (by omega) hn,
      index_take rawData _ _ (by omega) (by omega) hn,
      index_take rawData _ _ (by omega) (by omega) hn⟩
  rcases NewRGBA_outcome (Rect 0 0 W (rawHeight rawData W)) with ⟨img, hnew⟩ | hpanic
  · rw [decodeRawRGB24_of_NewRGBA rawData W (by omega) img hnew,
      decodeRawRGB24_of_NewRGBA _ W (by omega) img (by rw [hht]; exact hnew), hht]
    exact decodeRows_congr (rawData.take (3 * W * rawHeight rawData W).toNat) rawData W
      (rawHeight rawData W) hW hidx (rawHeight rawData W).toNat 0 img (le_refl 0)
      (by rw [Int.toNat_of_nonneg hh0]; omega)
  · rw [decodeRawRGB24_of_NewRGBA_panic rawData W (by omega) _ hpanic,
      decodeRawRGB24_of_NewRGBA_panic _ W (by omega) _ (by rw [hht]; exact hpanic)]

/-- Claim C14: for a positive width `W` and `h = L / (3*W)` the derived
height, `3*W*h` is at most `L`, and the decode of the whole byte sequence is
the decode of its first `3*W*h` bytes alone; hence any byte sequence that
starts with the same `3*W*h` bytes and has the same derived height decodes to
the same image, whatever follows those bytes. -/
theorem decodeRawRGB24_ignores_remainder (rawData : List Byte) (W : Int) (hW : 0 < W) :
    rawHeight rawData W = (rawData.length : Int) / (3 * W) ∧
      3 * W * rawHeight rawData W ≤ rawData.length ∧
      decodeRawRGB24 rawData W =
        decodeRawRGB24 (rawData.take (3 * W * rawHeight rawData W).toNat) W ∧
      ∀ other : List Byte,
        other.take (3 * W * rawHeight rawData W).toNat =
          rawData.take (3 * W * rawHeight rawData W).toNat →
        rawHeight other W = rawHeight rawData W →
        decodeRawRGB24 other W = decodeRawRGB24 rawData W := by
  refine ⟨(rawHeight_eq rawData W hW).1, rawHeight_mul_le rawData W hW,
    (decodeRawRGB24_take rawData W hW).symm, ?_⟩
  intro other htake hh
  rw [← decodeRawRGB24_take other W hW, hh, htake, decodeRawRGB24_take rawData W hW]

/-- Thirteen bytes at width 2: the thirteenth byte plays no part, and another
thirteenth byte gives the same image. -/
theorem C14_witness :
    decodeRawRGB24 [1, 2, 3, 4, 5, 6, 7, 8, 9, 10, 11, 12, 13] 2 =
        decodeRawRGB24 [1, 2, 3, 4, 5, 6, 7, 8, 9, 10, 11, 12] 2 ∧
      decodeRawRGB24 [1, 2, 3, 4, 5, 6, 7, 8, 9, 10, 11, 12, 200] 2 =
        decodeRawRGB24 [1, 2, 3, 4, 5, 6, 7, 8, 9, 10, 11, 12, 13] 2 :=
  ⟨(decodeRawRGB24_ignores_remainder [1, 2, 3, 4, 5, 6, 7, 8, 9, 10, 11, 12, 13] 2
      (by decide)).2.2.1,
   (decodeRawRGB24_ignores_remainder [1, 2, 3, 4, 5, 6, 7, 8, 9, 10, 11, 12, 13] 2
      (by decide)).2.2.2 [1, 2, 3, 4, 5, 6, 7, 8, 9, 10, 11, 12, 200] rfl rfl⟩

/-- Claim C18: nothing in the code checks that the width is positive.  With
`Width = 0` the decode of any byte sequence panics on the division
`len(rawData) / 3 / Width`, so once `ReadToEnd` has returned without error,
`readAndDecodeRawRGB24` ends in that panic: it returns neither an image nor
an error value. -/
theorem readAndDecodeRawRGB24_zero_width {σ : Type} (sb : PageReader σ) (fuel : Nat)
    (w : World σ) (r : ReadToEndResult σ) (hW : sb.Width = 0)
    (hread : sb.ReadToEnd fuel w = Outcome.ret r) (hok : r.err = none) :
    (∀ rawData : List Byte, decodeRawRGB24 rawData sb.Width = Outcome.panic Panic.divideByZero) ∧
      sb.readAndDecodeRawRGB24 fuel w = Outcome.panic Panic.divideByZero ∧
      ∀ res, sb.readAndDecodeRawRGB24 fuel w ≠ Outcome.ret res := by
  have hdec : ∀ rawData : List Byte,
      decodeRawRGB24 rawData sb.Width = Outcome.panic Panic.divideByZero := by
    intro rawData
    simp [decodeRawRGB24, hW]
  have hrun : sb.readAndDecodeRawRGB24 fuel w = Outcome.panic Panic.divideByZero := by
    simp [PageReader.readAndDecodeRawRGB24, hread, hok, hdec]
  refine ⟨hdec, hrun, ?_⟩
  intro res
  rw [hrun]
  simp

/-- Width 0 and a page of six bytes, and width 0 and a page without bytes. -/
theorem C18_witness :
    (scriptReader 0 0).readAndDecodeRawRGB24 2 ⟨[([1, 2, 3, 4, 5, 6], none)], 0, 0⟩ =
        Outcome.panic Panic.divideByZero ∧
      (scriptReader 0 0).readAndDecodeRawRGB24 1 ⟨[], 0, 0⟩ =
        Outcome.panic Panic.divideByZero :=
  ⟨(readAndDecodeRawRGB24_zero_width (scriptReader 0 0) 2 ⟨[([1, 2, 3, 4, 5, 6], none)], 0, 0⟩
      { data := [1, 2, 3, 4, 5, 6], err := none, world := ⟨[], 2, 1⟩ } rfl
      (scriptReader_ReadToEnd_chunk 0 0 [1, 2, 3, 4, 5, 6] 0 0 0 (by rw [chunkSize_eq]; decide))
      rfl).2.1,
   (readAndDecodeRawRGB24_zero_width (scriptReader 0 0) 1 ⟨[], 0, 0⟩
      { data := [], err := none, world := ⟨[], 1, 0⟩ } rfl
      (ReadToEnd_of_endOfPage (scriptReader 0 0) 0 ⟨[], 0, 0⟩ rfl) rfl).2.1⟩


/-! ## Termination of ReadToEnd -/

theorem ReadToEndLoop_short {σ : Type} (sb : PageReader σ) (fuel : Nat) :
    ∀ (k : Nat) (w : World σ) (result buf : List Byte), fuel ≤ k →
      (∀ i, i < k → (sb.nthRead i w buf).n ≤ buf.length) →
      (∀ i, i < k → (sb.nthRead i w buf).err = none) →
      sb.ReadToEndLoop fuel w result buf = Outcome.outOfFuel := by
  induction fuel with
  | zero => intro k w result buf _ _ _; rfl
  | succ fuel ih =>
    intro k w result buf hk hn hgo
    obtain ⟨j, rfl⟩ : ∃ j, k = j + 1 := ⟨k - 1, by omega⟩
    have h0 := hn 0 (Nat.succ_pos j)
    have e0 := hgo 0 (Nat.succ_pos j)
    simp only [PageReader.nthRead] at h0 e0
    rw [ReadToEndLoop_continue sb fuel w result buf h0 e0]
    have hlen := length_read_p sb w buf
    exact ih j _ _ _ (by omega)
      (fun i hi => by
        have := hn (i + 1) (by omega)
        simpa only [PageReader.nthRead, hlen] using this)
      (fun i hi => by
        have := hgo (i + 1) (by omega)
        simpa only [PageReader.nthRead] using this)

theorem idleReader_nthRead (i : Nat) :
    ∀ (w : World Unit) (buf : List Byte),
      (idleReader.nthRead i w buf).n = 0 ∧ (idleReader.nthRead i w buf).err = none := by
  induction i with
  | zero => intro w buf; exact ⟨rfl, rfl⟩
  | succ i ih => intro w buf; exact ih _ _

/-- Claim C17: for a run of reads of `ReadToEnd` in which no read claims more
bytes than the buffer holds: when the reads numbered 0 to `k - 1` report no
error and read `k` reports `io.EOF` or another error, `ReadToEnd` returns, and
the same result, with any fuel above `k`, and runs out of fuel with `k` or
less, so the loop makes exactly `k + 1` iterations, one per read (the count of
reads in the world returned is `k + 1` higher).  When no read ever reports an
error, `ReadToEnd` runs out of any fuel: the loop has no other exit. -/
theorem ReadToEnd_terminates {σ : Type} (sb : PageReader σ) (w : World σ) :
    (∀ k : Nat,
        (∀ i, i ≤ k → (sb.nthRead i w (List.replicate chunkSize 0)).n ≤ chunkSize) →
        (∀ i, i < k → (sb.nthRead i w (List.replicate chunkSize 0)).err = none) →
        (sb.nthRead k w (List.replicate chunkSize 0)).err ≠ none →
        (∃ r, (∀ fuel, k < fuel → sb.ReadToEnd fuel w = Outcome.ret r) ∧
          r.world = (sb.nthRead k w (List.replicate chunkSize 0)).world ∧
          r.world.reads = w.reads + (k + 1)) ∧
        ∀ fuel, fuel ≤ k → sb.ReadToEnd fuel w = Outcome.outOfFuel) ∧
      ((∀ i, (sb.nthRead i w (List.replicate chunkSize 0)).n ≤ chunkSize ∧
          (sb.nthRead i w (List.replicate chunkSize 0)).err = none) →
        ∀ fuel, sb.ReadToEnd fuel w = Outcome.outOfFuel) := by
  constructor
  · intro k hfit hgo hstop
    have hfit1 : ∀ i, i ≤ k →
        (sb.nthRead i w (List.replicate chunkSize 0)).n ≤
          ((List.replicate chunkSize (0 : Byte)).length : Int) := by simpa using hfit
    constructor
    · cases herr : (sb.nthRead k w (List.replicate chunkSize 0)).err with
      | none => exact absurd herr hstop
      | some e =>
        by_cases he : e = GoError.EOF
        · subst he
          exact ⟨_, fun fuel hf => ReadToEndLoop_run sb k fuel w [] _ hf hfit1 hgo herr,
            rfl, reads_nthRead sb k w _⟩
        · exact ⟨_, fun fuel hf => ReadToEndLoop_run_err sb e he k fuel w [] _ hf hfit1 hgo herr,
            rfl, reads_nthRead sb k w _⟩
    · intro fuel hf
      unfold PageReader.ReadToEnd
      exact ReadToEndLoop_short sb fuel k w [] _ hf (fun i hi => hfit1 i (by omega)) hgo
  · intro hall fuel
    unfold PageReader.ReadToEnd
    exact ReadToEndLoop_short sb fuel fuel w [] _ (le_refl _)
      (fun i _ => by simpa using (hall i).1) (fun i _ => (hall i).2)

/-- Two chunks and then the end of the page: three iterations, not fewer; and
the idle session, on which no fuel is enough. -/
theorem C17_witness :
    ((∃ r, (∀ fuel, 2 < fuel →
            (scriptReader 1 0).ReadToEnd fuel ⟨[([1, 2, 3], none), ([4, 5], none)], 0, 0⟩ =
              Outcome.ret r) ∧
          r.world.reads = 3) ∧
        ∀ fuel, fuel ≤ 2 →
          (scriptReader 1 0).ReadToEnd fuel ⟨[([1, 2, 3], none), ([4, 5], none)], 0, 0⟩ =
            Outcome.outOfFuel) ∧
      ∀ fuel, idleReader.ReadToEnd fuel ⟨(), 0, 0⟩ = Outcome.outOfFuel := by
  have hc := chunkSize_eq
  have h1 := (ReadToEnd_terminates (scriptReader 1 0)
    ⟨[([1, 2, 3], none), ([4, 5], none)], 0, 0⟩).1 2
    (by
      intro i hi
      interval_cases i <;> simp [PageReader.nthRead, scriptRead_cons, scriptRead_nil] <;> omega)
    (by
      intro i hi
      interval_cases i <;> simp [PageReader.nthRead, scriptRead_cons, scriptRead_nil])
    (by simp [PageReader.nthRead, scriptRead_cons, scriptRead_nil])
  have h2 := (ReadToEnd_terminates idleReader ⟨(), 0, 0⟩).2
    (fun i => by
      obtain ⟨hn, he⟩ := idleReader_nthRead i ⟨(), 0, 0⟩ (List.replicate chunkSize 0)
      exact ⟨by rw [hn]; exact Int.ofNat_nonneg _, he⟩)
  obtain ⟨⟨r, hr, _, hreads⟩, hshort⟩ := h1
  exact ⟨⟨⟨r, hr, by simpa using hreads⟩, hshort⟩, h2⟩


/-! ## WriteToFile -/

theorem WriteToFile_create_fails {σ ι : Type} (E : Externals σ ι) (X : FileExternals ι)
    (sb : PageReader σ) (fuel : Nat) (w : World σ) (fs : Files ι) (name format : String)
    (e : GoError) (hc : X.Create name = some e) :
    sb.WriteToFile E X fuel w fs name format =
      { out := Outcome.ret { err := some e, world := w }, files := fs } := by
  simp [PageReader.WriteToFile, hc]

theorem WriteToFile_image_error {σ ι : Type} (E : Externals σ ι) (X : FileExternals ι)
    (sb : PageReader σ) (fuel : Nat) (w : World σ) (fs : Files ι) (name format : String)
    (r : ImageResult σ ι) (e : GoError) (hc : X.Create name = none)
    (hg : sb.GetImage E fuel w = Outcome.ret r) (he : r.err = some e) :
    sb.WriteToFile E X fuel w fs name format =
      { out := Outcome.ret { err := some e, world := r.world },
        files := { created := fs.created ++ [name], closed := fs.closed + 1,
                   encoded := fs.encoded } } := by
  simp [PageReader.WriteToFile, PageReader.WriteToFileBody, deferredClose, hc, hg, he]

theorem WriteToFile_unknown_format {σ ι : Type} (E : Externals σ ι) (X : FileExternals ι)
    (sb : PageReader σ) (fuel : Nat) (w : World σ) (fs : Files ι) (name format : String)
    (r : ImageResult σ ι) (hc : X.Create name = none)
    (hg : sb.GetImage E fuel w = Outcome.ret r) (he : r.err = none)
    (hpng : format ≠ "png") (hjpg : format ≠ "jpg") :
    sb.WriteToFile E X fuel w fs name format =
      { out := Outcome.ret { err := some GoError.unknownFileFormat, world := r.world },
        files := { created := fs.created ++ [name], closed := fs.closed + 1,
                   encoded := fs.encoded } } := by
  simp [PageReader.WriteToFile, PageReader.WriteToFileBody, deferredClose, hc, hg, he, hpng,
    hjpg]

theorem WriteToFile_png {σ ι : Type} (E : Externals σ ι) (X : FileExternals ι)
    (sb : PageReader σ) (fuel : Nat) (w : World σ) (fs : Files ι) (name : String)
    (r : ImageResult σ ι) (hc : X.Create name = none)
    (hg : sb.GetImage E fuel w = Outcome.ret r) (he : r.err = none) :
    sb.WriteToFile E X fuel w fs name "png" =
      deferredClose
        { out := (X.pngEncode r.img).map (fun e => { err := e, world := r.world }),
          files := { created := fs.created ++ [name], closed := fs.closed,
                     encoded := fs.encoded ++ [Encoding.png r.img] } } := by
  simp [PageReader.WriteToFile, PageReader.WriteToFileBody, hc, hg, he]

theorem WriteToFile_jpg {σ ι : Type} (E : Externals σ ι) (X : FileExternals ι)
    (sb : PageReader σ) (fuel : Nat) (w : World σ) (fs : Files ι) (name : String)
    (r : ImageResult σ ι) (hc : X.Create name = none)
    (hg : sb.GetImage E fuel w = Outcome.ret r) (he : r.err = none) :
    sb.WriteToFile E X fuel w fs name "jpg" =
      deferredClose
        { out := (X.jpegEncode r.img 50).map (fun e => { err := e, world := r.world }),
          files := { created := fs.created ++ [name], closed := fs.closed,
                     encoded := fs.encoded ++ [Encoding.jpeg r.img 50] } } := by
  simp [PageReader.WriteToFile, PageReader.WriteToFileBody, hc, hg, he]

theorem WriteToFile_image_panic {σ ι : Type} (E : Externals σ ι) (X : FileExternals ι)
    (sb : PageReader σ) (fuel : Nat) (w : World σ) (fs : Files ι) (name format : String)
    (e : Panic) (hc : X.Create name = none) (hg : sb.GetImage E fuel w = Outcome.panic e) :
    sb.WriteToFile E X fuel w fs name format =
      { out := Outcome.panic e,
        files := { created := fs.created ++ [name], closed := fs.closed + 1,
                   encoded := fs.encoded } } := by
  simp [PageReader.WriteToFile, PageReader.WriteToFileBody, deferredClose, hc, hg]

theorem WriteToFile_image_outOfFuel {σ ι : Type} (E : Externals σ ι) (X : FileExternals ι)
    (sb : PageReader σ) (fuel : Nat) (w : World σ) (fs : Files ι) (name format : String)
    (hc : X.Create name = none) (hg : sb.GetImage E fuel w = Outcome.outOfFuel) :
    sb.WriteToFile E X fuel w fs name format =
      { out := Outcome.outOfFuel,
        files := { created := fs.created ++ [name], closed := fs.closed,
                   encoded := fs.encoded } } := by
  simp [PageReader.WriteToFile, PageReader.WriteToFileBody, deferredClose, hc, hg]

theorem deferredClose_files {σ ι : Type} (r : WriteResult σ ι) :
    (deferredClose r).out = r.out ∧ (deferredClose r).files.created = r.files.created ∧
      (deferredClose r).files.encoded = r.files.encoded ∧
      (r.out ≠ Outcome.outOfFuel → (deferredClose r).files.closed = r.files.closed + 1) := by
  unfold deferredClose
  cases h : r.out <;> simp [h]


theorem WriteToFileBody_error {σ ι : Type} (E : Externals σ ι) (X : FileExternals ι)
    (sb : PageReader σ) (fuel : Nat) (w : World σ) (fs : Files ι) (format : String)
    (r : ImageResult σ ι) (hg : sb.GetImage E fuel w = Outcome.ret r) (he : r.err ≠ none) :
    sb.WriteToFileBody E X fuel w fs format =
      { out := Outcome.ret { err := r.err, world := r.world }, files := fs } := by
  simp [PageReader.WriteToFileBody, hg, he]

theorem WriteToFileBody_png {σ ι : Type} (E : Externals σ ι) (X : FileExternals ι)
    (sb : PageReader σ) (fuel : Nat) (w : World σ) (fs : Files ι)
    (r : ImageResult σ ι) (hg : sb.GetImage E fuel w = Outcome.ret r) (he : r.err = none) :
    sb.WriteToFileBody E X fuel w fs "png" =
      { out := (X.pngEncode r.img).map (fun e => { err := e, world := r.world }),
        files := { fs with encoded := fs.encoded ++ [Encoding.png r.img] } } := by
  simp [PageReader.WriteToFileBody, hg, he]

theorem WriteToFileBody_jpg {σ ι : Type} (E : Externals σ ι) (X : FileExternals ι)
    (sb : PageReader σ) (fuel : Nat) (w : World σ) (fs : Files ι)
    (r : ImageResult σ ι) (hg : sb.GetImage E fuel w = Outcome.ret r) (he : r.err = none) :
    sb.WriteToFileBody E X fuel w fs "jpg" =
      { out := (X.jpegEncode r.img 50).map (fun e => { err := e, world := r.world }),
        files := { fs with encoded := fs.encoded ++ [Encoding.jpeg r.img 50] } } := by
  simp [PageReader.WriteToFileBody, hg, he]

theorem WriteToFileBody_unknown {σ ι : Type} (E : Externals σ ι) (X : FileExternals ι)
    (sb : PageReader σ) (fuel : Nat) (w : World σ) (fs : Files ι) (format : String)
    (r : ImageResult σ ι) (hg : sb.GetImage E fuel w = Outcome.ret r) (he : r.err = none)
    (hpng : format ≠ "png") (hjpg : format ≠ "jpg") :
    sb.WriteToFileBody E X fuel w fs format =
      { out := Outcome.ret { err := some GoError.unknownFileFormat, world := r.world },
        files := fs } := by
  simp [PageReader.WriteToFileBody, hg, he, hpng, hjpg]

theorem WriteToFileBody_files {σ ι : Type} (E : Externals σ ι) (X : FileExternals ι)
    (sb : PageReader σ) (fuel : Nat) (w : World σ) (fs : Files ι) (format : String) :
    (sb.WriteToFileBody E X fuel w fs format).files.created = fs.created ∧
      (sb.WriteToFileBody E X fuel w fs format).files.closed = fs.closed ∧
      ((sb.WriteToFileBody E X fuel w fs format).files.encoded = fs.encoded ∨
        (format = "png" ∧ ∃ img, (sb.WriteToFileBody E X fuel w fs format).files.encoded =
          fs.encoded ++ [Encoding.png img]) ∨
        (format = "jpg" ∧ ∃ img, (sb.WriteToFileBody E X fuel w fs format).files.encoded =
          fs.encoded ++ [Encoding.jpeg img 50])) := by
  cases hg : sb.GetImage E fuel w with
  | ret r =>
    by_cases he : r.err = none
    · by_cases hpng : format = "png"
      · subst hpng
        rw [WriteToFileBody_png E X sb fuel w fs r hg he]
        exact ⟨rfl, rfl, Or.inr (Or.inl ⟨rfl, r.img, rfl⟩)⟩
      · by_cases hjpg : format = "jpg"
        · subst hjpg
          rw [WriteToFileBody_jpg E X sb fuel w fs r hg he]
          exact ⟨rfl, rfl, Or.inr (Or.inr ⟨rfl, r.img, rfl⟩)⟩
        · rw [WriteToFileBody_unknown E X sb fuel w fs format r hg he hpng hjpg]
          exact ⟨rfl, rfl, Or.inl rfl⟩
    · rw [WriteToFileBody_error E X sb fuel w fs format r hg he]
      exact ⟨rfl, rfl, Or.inl rfl⟩
  | panic e => simp [PageReader.WriteToFileBody, hg]
  | outOfFuel => simp [PageReader.WriteToFileBody, hg]

theorem WriteToFileBody_world {σ ι : Type} (E : Externals σ ι) (X : FileExternals ι)
    (sb : PageReader σ) (fuel : Nat) (w : World σ) (fs : Files ι) (format : String)
    (r : ImageResult σ ι) (res : WriteReturn σ)
    (hg : sb.GetImage E fuel w = Outcome.ret r)
    (hout : (sb.WriteToFileBody E X fuel w fs format).out = Outcome.ret res) :
    res.world = r.world := by
  by_cases he : r.err = none
  · by_cases hpng : format = "png"
    · subst hpng
      rw [WriteToFileBody_png E X sb fuel w fs r hg he] at hout
      cases hp : X.pngEncode r.img with
      | ret e => rw [hp] at hout; injection hout with h; rw [← h]
      | panic e => rw [hp] at hout; exact absurd hout (by simp [Outcome.map])
      | outOfFuel => rw [hp] at hout; exact absurd hout (by simp [Outcome.map])
    · by_cases hjpg : format = "jpg"
      · subst hjpg
        rw [WriteToFileBody_jpg E X sb fuel w fs r hg he] at hout
        cases hp : X.jpegEncode r.img 50 with
        | ret e => rw [hp] at hout; injection hout with h; rw [← h]
        | panic e => rw [hp] at hout; exact absurd hout (by simp [Outcome.map])
        | outOfFuel => rw [hp] at hout; exact absurd hout (by simp [Outcome.map])
      · rw [WriteToFileBody_unknown E X sb fuel w fs format r hg he hpng hjpg] at hout
        injection hout with h; rw [← h]
  · rw [WriteToFileBody_error E X sb fuel w fs format r hg he] at hout
    injection hout with h; rw [← h]


theorem scriptReader_ReadToEnd_error (W : Int) (F : Nat) (d : List Byte) (e : GoError)
    (rest : List (List Byte × Option GoError)) (a b fuel : Nat)
    (hd : d.length ≤ chunkSize) (hne : e ≠ GoError.EOF) :
    (scriptReader W F).ReadToEnd (fuel + 1) ⟨(d, some e) :: rest, a, b⟩ =
      Outcome.ret { data := [], err := some e, world := ⟨rest, a + 1, b + 1⟩ } := by
  unfold PageReader.ReadToEnd
  rw [ReadToEndLoop_err (scriptReader W F) fuel _ [] _ e
    (by rw [scriptRead_cons]; simpa using hd) (by rw [scriptRead_cons]) hne, scriptRead_cons]

theorem GetImage_of_raw_error {σ ι : Type} (E : Externals σ ι) (sb : PageReader σ)
    (fuel : Nat) (w : World σ) (r : ReadToEndResult σ) (e : GoError)
    (hraw : sb.Format = E.LisImgFormatRawRGB24)
    (hread : sb.ReadToEnd fuel w = Outcome.ret r) (he : r.err = some e) :
    sb.GetImage E fuel w = Outcome.ret { img := none, err := some e, world := r.world } := by
  unfold PageReader.GetImage PageReader.readAndDecodeRawRGB24
  rw [if_pos hraw, hread]
  simp [he, Outcome.map, RawResult.asImageResult]

/-- Claim C11, as stated, fails: with the format `"bmp"` and a session whose
first read returns an error, the file `page.bmp` is created and `WriteToFile`
returns the error of the session, not the unknown-format error. -/
theorem C11_counterexample :
    sampleFiles.Create "page.bmp" = none ∧ "bmp" ≠ "png" ∧ "bmp" ≠ "jpg" ∧
      (scriptReader 2 0).WriteToFile sampleExternals sampleFiles 1
          ⟨[([], some (GoError.other 7))], 0, 0⟩ ⟨[], 0, []⟩ "page.bmp" "bmp" =
        { out := Outcome.ret { err := some (GoError.other 7), world := ⟨[], 1, 1⟩ },
          files := { created := ["page.bmp"], closed := 1, encoded := [] } } ∧
      some (GoError.other 7) ≠ some GoError.unknownFileFormat := by
  refine ⟨by decide, by decide, by decide, ?_, by decide⟩
  have hread := scriptReader_ReadToEnd_error 2 0 [] (GoError.other 7) [] 0 0 0
    (Nat.zero_le _) (by decide)
  have hg := GetImage_of_raw_error sampleExternals (scriptReader 2 0) 1 _ _ _ rfl hread rfl
  rw [WriteToFile_image_error sampleExternals sampleFiles (scriptReader 2 0) 1 _ ⟨[], 0, []⟩
    "page.bmp" "bmp" _ (GoError.other 7) (by decide) hg rfl]
  rfl

/-- Claim C11, amended: for every output-format string other than `"png"` and
`"jpg"`, when `os.Create` succeeds and `GetImage` returns an image with a nil
error, `WriteToFile` returns the unknown-format error; the file is created by
then, its handle closed once, and nothing was encoded into it. -/
theorem WriteToFile_unsupported_format {σ ι : Type} (E : Externals σ ι)
    (X : FileExternals ι) (sb : PageReader σ) (fuel : Nat) (w : World σ) (fs : Files ι)
    (name format : String) (r : ImageResult σ ι) (hc : X.Create name = none)
    (hpng : format ≠ "png") (hjpg : format ≠ "jpg")
    (hg : sb.GetImage E fuel w = Outcome.ret r) (he : r.err = none) :
    sb.WriteToFile E X fuel w fs name format =
      { out := Outcome.ret { err := some GoError.unknownFileFormat, world := r.world },
        files := { created := fs.created ++ [name], closed := fs.closed + 1,
                   encoded := fs.encoded } } :=
  WriteToFile_unknown_format E X sb fuel w fs name format r hc hg he hpng hjpg

/-- The format `"bmp"` on a raw page of 12 bytes: the error, and the file made. -/
theorem C11_witness :
    (scriptReader 2 0).WriteToFile sampleExternals sampleFiles 2
        ⟨[([1, 2, 3, 4, 5, 6, 7, 8, 9, 10, 11, 12], none)], 0, 0⟩ ⟨[], 0, []⟩
        "page.bmp" "bmp" =
      { out := Outcome.ret { err := some GoError.unknownFileFormat, world := ⟨[], 2, 1⟩ },
        files := { created := ["page.bmp"], closed := 1, encoded := [] } } := by
  obtain ⟨m, hdec, _⟩ := decodeRawRGB24_spec_of_length [1, 2, 3, 4, 5, 6, 7, 8, 9, 10, 11, 12] 2
    (by decide) (by decide) (by decide)
  have hread := scriptReader_ReadToEnd_chunk 2 0 [1, 2, 3, 4, 5, 6, 7, 8, 9, 10, 11, 12] 0 0 0
    (by rw [chunkSize_eq]; decide)
  have hg := GetImage_of_raw sampleExternals (scriptReader 2 0) 2 _ _ m rfl hread rfl hdec
  rw [WriteToFile_unsupported_format sampleExternals sampleFiles (scriptReader 2 0) 2 _
    ⟨[], 0, []⟩ "page.bmp" "bmp" _ (by decide) (by decide) (by decide) hg rfl]
  rfl


/-- Claim C15: when `os.Create` fails, `WriteToFile` returns its error with the
files and the world untouched (no handle, no read).  When it succeeds, the
file is on record as created, and on every way out of `WriteToFile`, a return
of any value (the error of `GetImage`, the unknown-format error, the error of
an encoder, or nil) as well as a panic, the handle has been closed exactly
once; the four named ways out are spelled out with their return values. -/
theorem WriteToFile_closes_handle {σ ι : Type} (E : Externals σ ι) (X : FileExternals ι)
    (sb : PageReader σ) (fuel : Nat) (w : World σ) (fs : Files ι) (name format : String) :
    (∀ e, X.Create name = some e →
        sb.WriteToFile E X fuel w fs name format =
          { out := Outcome.ret { err := some e, world := w }, files := fs }) ∧
      (X.Create name = none →
        (sb.WriteToFile E X fuel w fs name format).files.created = fs.created ++ [name] ∧
        (∀ res, (sb.WriteToFile E X fuel w fs name format).out = Outcome.ret res →
          (sb.WriteToFile E X fuel w fs name format).files.closed = fs.closed + 1) ∧
        (∀ e, (sb.WriteToFile E X fuel w fs name format).out = Outcome.panic e →
          (sb.WriteToFile E X fuel w fs name format).files.closed = fs.closed + 1) ∧
        (∀ r e, sb.GetImage E fuel w = Outcome.ret r → r.err = some e →
          (sb.WriteToFile E X fuel w fs name format).out =
              Outcome.ret { err := some e, world := r.world } ∧
            (sb.WriteToFile E X fuel w fs name format).files.closed = fs.closed + 1) ∧
        (∀ r, sb.GetImage E fuel w = Outcome.ret r → r.err = none →
          format ≠ "png" → format ≠ "jpg" →
          (sb.WriteToFile E X fuel w fs name format).out =
              Outcome.ret { err := some GoError.unknownFileFormat, world := r.world } ∧
            (sb.WriteToFile E X fuel w fs name format).files.closed = fs.closed + 1) ∧
        (∀ r e, sb.GetImage E fuel w = Outcome.ret r → r.err = none →
          ((format = "png" ∧ X.pngEncode r.img = Outcome.ret e) ∨
            (format = "jpg" ∧ X.jpegEncode r.img 50 = Outcome.ret e)) →
          (sb.WriteToFile E X fuel w fs name format).out =
              Outcome.ret { err := e, world := r.world } ∧
            (sb.WriteToFile E X fuel w fs name format).files.closed = fs.closed + 1)) := by
  refine ⟨fun e hc => WriteToFile_create_fails E X sb fuel w fs name format e hc, fun hc => ?_⟩
  have hW : sb.WriteToFile E X fuel w fs name format =
      deferredClose
        (sb.WriteToFileBody E X fuel w { fs with created := fs.created ++ [name] } format) := by
    simp [PageReader.WriteToFile, hc]
  have hd := deferredClose_files
    (sb.WriteToFileBody E X fuel w { fs with created := fs.created ++ [name] } format)
  have hb := WriteToFileBody_files E X sb fuel w { fs with created := fs.created ++ [name] }
    format
  have hclosed : (sb.WriteToFile E X fuel w fs name format).out ≠ Outcome.outOfFuel →
      (sb.WriteToFile E X fuel w fs name format).files.closed = fs.closed + 1 := by
    intro hne
    rw [hW] at hne ⊢
    rw [hd.1] at hne
    rw [hd.2.2.2 hne, hb.2.1]
  refine ⟨by rw [hW, hd.2.1, hb.1], fun res hres => hclosed (by rw [hres]; simp),
    fun e hres => hclosed (by rw [hres]; simp), ?_, ?_, ?_⟩
  · intro r e hg he
    rw [WriteToFile_image_error E X sb fuel w fs name format r e hc hg he]
    exact ⟨rfl, rfl⟩
  · intro r hg he hpng hjpg
    rw [WriteToFile_unknown_format E X sb fuel w fs name format r hc hg he hpng hjpg]
    exact ⟨rfl, rfl⟩
  · intro r e hg he henc
    rcases henc with ⟨hf, hp⟩ | ⟨hf, hp⟩
    · subst hf
      rw [WriteToFile_png E X sb fuel w fs name r hc hg he, hp]
      exact ⟨rfl, rfl⟩
    · subst hf
      rw [WriteToFile_jpg E X sb fuel w fs name r hc hg he, hp]
      exact ⟨rfl, rfl⟩

/-- A creation that fails (the empty name), and a page written as PNG: the
one leaves everything as it was, the other closes the handle once. -/
theorem C15_witness :
    (scriptReader 2 0).WriteToFile sampleExternals sampleFiles 2
          ⟨[([1, 2, 3, 4, 5, 6], none)], 0, 0⟩ ⟨["old.png"], 1, []⟩ "" "png" =
        { out := Outcome.ret { err := some (GoError.other 2),
                                world := ⟨[([1, 2, 3, 4, 5, 6], none)], 0, 0⟩ },
          files := ⟨["old.png"], 1, []⟩ } ∧
      ((scriptReader 2 0).WriteToFile sampleExternals sampleFiles 2
          ⟨[([1, 2, 3, 4, 5, 6], none)], 0, 0⟩ ⟨["old.png"], 1, []⟩ "new.png" "png").out =
        Outcome.ret { err := none, world := ⟨[], 2, 1⟩ } ∧
      ((scriptReader 2 0).WriteToFile sampleExternals sampleFiles 2
          ⟨[([1, 2, 3, 4, 5, 6], none)], 0, 0⟩ ⟨["old.png"], 1, []⟩ "new.png" "png").files.closed =
        2 ∧
      ((scriptReader 2 0).WriteToFile sampleExternals sampleFiles 2
          ⟨[([1, 2, 3, 4, 5, 6], none)], 0, 0⟩ ⟨["old.png"], 1, []⟩ "new.png" "png").files.created =
        ["old.png", "new.png"] := by
  obtain ⟨m, hdec, _⟩ := decodeRawRGB24_spec_of_length [1, 2, 3, 4, 5, 6] 2 (by decide)
    (by decide) (by decide)
  have hread := scriptReader_ReadToEnd_chunk 2 0 [1, 2, 3, 4, 5, 6] 0 0 0
    (by rw [chunkSize_eq]; decide)
  have hg := GetImage_of_raw sampleExternals (scriptReader 2 0) 2 _ _ m rfl hread rfl hdec
  have h1 := (WriteToFile_closes_handle sampleExternals sampleFiles (scriptReader 2 0) 2
    ⟨[([1, 2, 3, 4, 5, 6], none)], 0, 0⟩ ⟨["old.png"], 1, []⟩ "" "png").1 (GoError.other 2)
    (by decide)
  have h2 := (WriteToFile_closes_handle sampleExternals sampleFiles (scriptReader 2 0) 2
    ⟨[([1, 2, 3, 4, 5, 6], none)], 0, 0⟩ ⟨["old.png"], 1, []⟩ "new.png" "png").2 (by decide)
  obtain ⟨hcr, _, _, _, _, henc⟩ := h2
  obtain ⟨hout, hcl⟩ := henc _ none hg rfl (Or.inl ⟨rfl, rfl⟩)
  exact ⟨h1, hout, hcl, hcr⟩


theorem WriteToFile_encoded {σ ι : Type} (E : Externals σ ι) (X : FileExternals ι)
    (sb : PageReader σ) (fuel : Nat) (w : World σ) (fs : Files ι) (name format : String) :
    (sb.WriteToFile E X fuel w fs name format).files.encoded = fs.encoded ∨
      (format = "png" ∧ ∃ img, (sb.WriteToFile E X fuel w fs name format).files.encoded =
        fs.encoded ++ [Encoding.png img]) ∨
      (format = "jpg" ∧ ∃ img, (sb.WriteToFile E X fuel w fs name format).files.encoded =
        fs.encoded ++ [Encoding.jpeg img 50]) := by
  cases hc : X.Create name with
  | some e =>
    rw [WriteToFile_create_fails E X sb fuel w fs name format e hc]
    exact Or.inl rfl
  | none =>
    have hW : sb.WriteToFile E X fuel w fs name format =
        deferredClose
          (sb.WriteToFileBody E X fuel w { fs with created := fs.created ++ [name] } format) := by
      simp [PageReader.WriteToFile, hc]
    rw [hW, (deferredClose_files _).2.2.1]
    exact (WriteToFileBody_files E X sb fuel w { fs with created := fs.created ++ [name] }
      format).2.2

/-- Claim C16: `WriteToJpeg(name)` is `WriteToFile(name, "jpg")` and
`WriteToPng(name)` is `WriteToFile(name, "png")`.  When the file is created
and `GetImage` returns an image without error, `WriteToJpeg` makes one encoder
call, the JPEG encoder on that image with quality 50, and returns its error;
`WriteToPng` makes one call, the PNG encoder on that image, and returns its
error.  Whatever the format string, `WriteToFile` makes no encoder call, or
the PNG call when the string is `"png"`, or the JPEG call with quality 50 when
it is `"jpg"`; any other string reaches no encoder. -/
theorem WriteToJpeg_WriteToPng {σ ι : Type} (E : Externals σ ι) (X : FileExternals ι)
    (sb : PageReader σ) (fuel : Nat) (w : World σ) (fs : Files ι) (name : String) :
    sb.WriteToJpeg E X fuel w fs name = sb.WriteToFile E X fuel w fs name "jpg" ∧
      sb.WriteToPng E X fuel w fs name = sb.WriteToFile E X fuel w fs name "png" ∧
      (∀ r, X.Create name = none → sb.GetImage E fuel w = Outcome.ret r → r.err = none →
        (sb.WriteToJpeg E X fuel w fs name).out =
            (X.jpegEncode r.img 50).map (fun e => { err := e, world := r.world }) ∧
          (sb.WriteToJpeg E X fuel w fs name).files.encoded =
            fs.encoded ++ [Encoding.jpeg r.img 50]) ∧
      (∀ r, X.Create name = none → sb.GetImage E fuel w = Outcome.ret r → r.err = none →
        (sb.WriteToPng E X fuel w fs name).out =
            (X.pngEncode r.img).map (fun e => { err := e, world := r.world }) ∧
          (sb.WriteToPng E X fuel w fs name).files.encoded =
            fs.encoded ++ [Encoding.png r.img]) ∧
      (∀ format : String,
        (sb.WriteToFile E X fuel w fs name format).files.encoded = fs.encoded ∨
        (format = "png" ∧ ∃ img, (sb.WriteToFile E X fuel w fs name format).files.encoded =
          fs.encoded ++ [Encoding.png img]) ∨
        (format = "jpg" ∧ ∃ img, (sb.WriteToFile E X fuel w fs name format).files.encoded =
          fs.encoded ++ [Encoding.jpeg img 50])) ∧
      ∀ format : String, format ≠ "png" → format ≠ "jpg" →
        (sb.WriteToFile E X fuel w fs name format).files.encoded = fs.encoded := by
  refine ⟨rfl, rfl, ?_, ?_, fun format => WriteToFile_encoded E X sb fuel w fs name format, ?_⟩
  · intro r hc hg he
    unfold PageReader.WriteToJpeg
    rw [WriteToFile_jpg E X sb fuel w fs name r hc hg he]
    exact ⟨(deferredClose_files _).1, (deferredClose_files _).2.2.1⟩
  · intro r hc hg he
    unfold PageReader.WriteToPng
    rw [WriteToFile_png E X sb fuel w fs name r hc hg he]
    exact ⟨(deferredClose_files _).1, (deferredClose_files _).2.2.1⟩
  · intro format hpng hjpg
    rcases WriteToFile_encoded E X sb fuel w fs name format with h | ⟨h, _⟩ | ⟨h, _⟩
    · exact h
    · exact absurd h hpng
    · exact absurd h hjpg

/-- Claim C19: once `os.Create` has succeeded, for every format string: when
`GetImage` returns an error `e`, `WriteToFile` returns `e`, in the world
`GetImage` left, with the file created, its handle closed and no encoder call
made, the format never looked at; whenever `WriteToFile` returns at all, the
world is the one `GetImage` left, so the page was read before the format was
examined, also for an unsupported format; and a panic or a run without end of
`GetImage` is the panic or the run without end of `WriteToFile`. -/
theorem WriteToFile_gets_image_first {σ ι : Type} (E : Externals σ ι) (X : FileExternals ι)
    (sb : PageReader σ) (fuel : Nat) (w : World σ) (fs : Files ι) (name format : String)
    (hc : X.Create name = none) :
    (∀ r e, sb.GetImage E fuel w = Outcome.ret r → r.err = some e →
        sb.WriteToFile E X fuel w fs name format =
          { out := Outcome.ret { err := some e, world := r.world },
            files := { created := fs.created ++ [name], closed := fs.closed + 1,
                       encoded := fs.encoded } }) ∧
      (∀ r res, sb.GetImage E fuel w = Outcome.ret r →
        (sb.WriteToFile E X fuel w fs name format).out = Outcome.ret res →
        res.world = r.world) ∧
      (∀ r, sb.GetImage E fuel w = Outcome.ret r → r.err = none →
        format ≠ "png" → format ≠ "jpg" →
        (sb.WriteToFile E X fuel w fs name format).out =
          Outcome.ret { err := some GoError.unknownFileFormat, world := r.world }) ∧
      (∀ e, sb.GetImage E fuel w = Outcome.panic e →
        (sb.WriteToFile E X fuel w fs name format).out = Outcome.panic e) ∧
      (sb.GetImage E fuel w = Outcome.outOfFuel →
        (sb.WriteToFile E X fuel w fs name format).out = Outcome.outOfFuel) := by
  refine ⟨fun r e hg he => WriteToFile_image_error E X sb fuel w fs name format r e hc hg he,
    ?_, ?_, ?_, ?_⟩
  · intro r res hg hout
    have hW : sb.WriteToFile E X fuel w fs name format =
        deferredClose
          (sb.WriteToFileBody E X fuel w { fs with created := fs.created ++ [name] } format) := by
      simp [PageReader.WriteToFile, hc]
    rw [hW, (deferredClose_files _).1] at hout
    exact WriteToFileBody_world E X sb fuel w _ format r res hg hout
  · intro r hg he hpng hjpg
    rw [WriteToFile_unknown_format E X sb fuel w fs name format r hc hg he hpng hjpg]
  · intro e hg
    rw [WriteToFile_image_panic E X sb fuel w fs name format e hc hg]
  · intro hg
    rw [WriteToFile_image_outOfFuel E X sb fuel w fs name format hc hg]

/-- A session whose first read fails, written as PNG and as BMP: the same
error either way, the second chunk still unread, and an empty file. -/
theorem C19_witness :
    (scriptReader 2 0).WriteToFile sampleExternals sampleFiles 3
          ⟨[([1, 2], some (GoError.other 7)), ([3], none)], 0, 0⟩ ⟨[], 0, []⟩ "a.png" "png" =
        { out := Outcome.ret { err := some (GoError.other 7), world := ⟨[([3], none)], 1, 1⟩ },
          files := { created := ["a.png"], closed := 1, encoded := [] } } ∧
      (scriptReader 2 0).WriteToFile sampleExternals sampleFiles 3
          ⟨[([1, 2], some (GoError.other 7)), ([3], none)], 0, 0⟩ ⟨[], 0, []⟩ "a.bmp" "bmp" =
        { out := Outcome.ret { err := some (GoError.other 7), world := ⟨[([3], none)], 1, 1⟩ },
          files := { created := ["a.bmp"], closed := 1, encoded := [] } } := by
  have hread := scriptReader_ReadToEnd_error 2 0 [1, 2] (GoError.other 7) [([3], none)] 0 0 2
    (by rw [chunkSize_eq]; decide) (by decide)
  have hg := GetImage_of_raw_error sampleExternals (scriptReader 2 0) 3 _ _ _ rfl hread rfl
  exact ⟨(WriteToFile_gets_image_first sampleExternals sampleFiles (scriptReader 2 0) 3 _
      ⟨[], 0, []⟩ "a.png" "png" (by decide)).1 _ _ hg rfl,
    (WriteToFile_gets_image_first sampleExternals sampleFiles (scriptReader 2 0) 3 _
      ⟨[], 0, []⟩ "a.bmp" "bmp" (by decide)).1 _ _ hg rfl⟩

/-- A page of six bytes written as JPEG and as PNG with the sample encoders:
one JPEG call with quality 50 and the error of that encoder, one PNG call. -/
theorem C16_witness :
    ∃ img,
      ((scriptReader 2 0).WriteToJpeg sampleExternals sampleFiles 2
          ⟨[([1, 2, 3, 4, 5, 6], none)], 0, 0⟩ ⟨[], 0, []⟩ "a.jpg").files.encoded =
        [Encoding.jpeg img 50] ∧
      ((scriptReader 2 0).WriteToJpeg sampleExternals sampleFiles 2
          ⟨[([1, 2, 3, 4, 5, 6], none)], 0, 0⟩ ⟨[], 0, []⟩ "a.jpg").out =
        Outcome.ret { err := some (GoError.other 3), world := ⟨[], 2, 1⟩ } ∧
      ((scriptReader 2 0).WriteToPng sampleExternals sampleFiles 2
          ⟨[([1, 2, 3, 4, 5, 6], none)], 0, 0⟩ ⟨[], 0, []⟩ "a.png").files.encoded =
        [Encoding.png img] ∧
      ((scriptReader 2 0).WriteToFile sampleExternals sampleFiles 2
          ⟨[([1, 2, 3, 4, 5, 6], none)], 0, 0⟩ ⟨[], 0, []⟩ "a.gif" "gif").files.encoded = [] := by
  obtain ⟨m, hdec, _⟩ := decodeRawRGB24_spec_of_length [1, 2, 3, 4, 5, 6] 2 (by decide)
    (by decide) (by decide)
  have hread := scriptReader_ReadToEnd_chunk 2 0 [1, 2, 3, 4, 5, 6] 0 0 0
    (by rw [chunkSize_eq]; decide)
  have hg := GetImage_of_raw sampleExternals (scriptReader 2 0) 2 _ _ m rfl hread rfl hdec
  have hj := WriteToJpeg_WriteToPng sampleExternals sampleFiles (scriptReader 2 0) 2
    ⟨[([1, 2, 3, 4, 5, 6], none)], 0, 0⟩ ⟨[], 0, []⟩ "a.jpg"
  have hp := WriteToJpeg_WriteToPng sampleExternals sampleFiles (scriptReader 2 0) 2
    ⟨[([1, 2, 3, 4, 5, 6], none)], 0, 0⟩ ⟨[], 0, []⟩ "a.png"
  have hgif := WriteToJpeg_WriteToPng sampleExternals sampleFiles (scriptReader 2 0) 2
    ⟨[([1, 2, 3, 4, 5, 6], none)], 0, 0⟩ ⟨[], 0, []⟩ "a.gif"
  obtain ⟨hj1, hj2⟩ := hj.2.2.1 _ (by decide) hg rfl
  obtain ⟨_, hp2⟩ := hp.2.2.2.1 _ (by decide) hg rfl
  exact ⟨some (Image.rgba m), hj2, hj1, hp2, hgif.2.2.2.2.2 "gif" (by decide) (by decide)⟩

end Lisgo
